import Mathlib

/-!
Shallow embedding of the Neutron language front end
(`src/server/parser.js`: class `NeutronParser`, and
`src/server/typeChecker.js`: class `TypeChecker`) together with proofs of
the behavioural properties C1-C10 about it.

Modelling conventions:
* JS strings are Lean `String` / `List Char`; byte offsets are `Nat`.
* JS exceptions are modelled with `Except String`; the thrown value is the
  JS error message.  A JS `TypeError` raised by reading a property of
  `null` (the reference dereferences `this.currentToken()` in several
  template literals without a null check) is modelled by the V8 message
  text for that dereference.
* The mutable parser object (`this.position`, `this.errors`) is threaded
  as explicit state; crucially the state survives a throw, as JS mutation
  does.  Expression-level routines of the reference never touch
  `this.errors`, so they are given a position-only state.
* JS recursion/loops are modelled with an explicit fuel parameter
  (`Nat`); `none` means the fuel ran out.  The reference parser can
  actually diverge (see C3), so a fuel-free total model is impossible.
* Apostrophes and braces inside message strings are written with `\x27`,
  `\x7b`, `\x7d` escapes.
-/

namespace NeutronSpec

/-- A quote character, `Char.ofNat 39`. -/
def squote : Char := Char.ofNat 39

/-- The backslash character. -/
def bslash : Char := Char.ofNat 92

/-- `tokenize` token: `{type, value, start, end}` (the JS field `end` is
called `stop` here because `end` is a Lean keyword). -/
structure Token where
  tokType : String
  value : String
  start : Nat
  stop : Nat
deriving DecidableEq, Repr

/-- A recorded parse error, as pushed by `addError(message, start, end)`. -/
structure PError where
  message : String
  start : Nat
  stop : Nat
deriving DecidableEq, Repr

/-- The character class of the JS regex `/\s/` restricted to ASCII (the
reference is only ever fed source text; the exotic Unicode spaces of
`/\s/` are not modelled). -/
def jsIsSpace (c : Char) : Bool :=
  c = ' ' || c = '\t' || c = '\n' || c = '\r' || c = '\x0b' || c = '\x0c'

/-- JS regex `/[0-9]/`. -/
def jsIsDigit (c : Char) : Bool := c.isDigit

/-- JS regex `/[0-9.]/`. -/
def jsIsDigitOrDot (c : Char) : Bool := c.isDigit || c = '.'

/-- JS regex `/[a-zA-Z_$]/`. -/
def jsIsIdentStart (c : Char) : Bool := c.isAlpha || c = '_' || c = '$'

/-- JS regex `/[a-zA-Z0-9_$]/`. -/
def jsIsIdentChar (c : Char) : Bool := c.isAlpha || c.isDigit || c = '_' || c = '$'

/-- `input.slice(a, b)` for `a ≤ b`. -/
def listSlice (l : List Char) (a b : Nat) : String :=
  String.mk ((l.drop a).take (b - a))

/-- `NeutronParser.isKeyword`. -/
def isKeyword (value : String) : Bool :=
  ([ "var", "int", "float", "string", "bool", "array", "object", "any",
     "if", "elif", "else", "while", "for", "return", "break", "continue",
     "class", "fun", "this", "and", "or", "not", "in", "new", "match",
     "case", "default", "use", "using", "true", "false", "nil", "static"
   ] : List String).contains value

/-- `NeutronParser.isTypeKeyword`. -/
def isTypeKeyword (value : String) : Bool :=
  ([ "int", "float", "string", "bool", "array", "object", "any" ] : List String).contains value

/-- `NeutronParser.findEndOfLine(pos)`: the index of the first `\n` or
`\r` at or after `pos`, else `input.length`. -/
def findEndOfLine (l : List Char) (pos : Nat) : Nat :=
  let t := (l.drop pos).takeWhile (fun c => !(c = '\n' || c = '\r'))
  if t.length = (l.drop pos).length then l.length else pos + t.length

/-- The single-line-comment loop of `tokenize`: advance `current` while the
character is not a newline; stops at the `\n` (left unconsumed) or at the
end of input. -/
def skipLineComment (l : List Char) (i : Nat) : Nat :=
  let t := (l.drop i).takeWhile (fun c => c ≠ '\n')
  if t.length = (l.drop i).length then l.length else i + t.length

/-- `i + (number of characters satisfying p from i)`: the generic
character-scanning loops of `tokenize` (numbers, identifiers). -/
def scanWhileFrom (p : Char → Bool) (l : List Char) (i : Nat) : Nat :=
  i + ((l.drop i).takeWhile p).length

/-- The multi-line-comment loop of `tokenize`:
`while (current < input.length - 1 && !(input[current] === char-star &&
input[current+1] === slash)) current++` — returns the final `current`
(the caller then adds 2). -/
def scanBlockComment (l : List Char) : Nat → Nat → Option Nat
  | 0, _ => none
  | f + 1, i =>
    if i + 1 < l.length then
      if l.get? i = some '*' && l.get? (i + 1) = some '/' then some i
      else scanBlockComment l f (i + 1)
    else some i

/-- The string-literal loop of `tokenize`: from `i` (just past the opening
quote), a backslash skips the next character verbatim; returns
`.ok (index just past the closing quote)` or `.error ()` when the input
ends first (the unterminated-string case). -/
def scanString (l : List Char) (q : Char) : Nat → Nat → Option (Except Unit Nat)
  | 0, _ => none
  | f + 1, i =>
    match l.get? i with
    | none => some (.error ())
    | some c =>
      if c = q then some (.ok (i + 1))
      else if c = bslash then scanString l q f (i + 2)
      else scanString l q f (i + 1)

/-- `NeutronParser.tokenize`, as a fuelled loop over the scan position;
`.error s` models `throw new Error("Unterminated string at position s")`. -/
def tokenizeF (l : List Char) : Nat → Nat → List Token → Option (Except Nat (List Token))
  | 0, _, _ => none
  | f + 1, current, acc =>
    match l.get? current with
    | none => some (.ok acc)
    | some c =>
      if jsIsSpace c then tokenizeF l f (current + 1) acc
      else if c = '/' && l.get? (current + 1) = some '/' then
        tokenizeF l f (skipLineComment l current) acc
      else if c = '/' && l.get? (current + 1) = some '*' then
        match scanBlockComment l (l.length + 1) (current + 2) with
        | none => none
        | some j => tokenizeF l f (j + 2) acc
      else if c = '"' || c = squote then
        match scanString l c (l.length + 1) (current + 1) with
        | none => none
        | some (.error _) => some (.error current)
        | some (.ok j) =>
          tokenizeF l f j (acc ++ [⟨"STRING", listSlice l current j, current, j⟩])
      else if jsIsDigit c then
        let j := scanWhileFrom jsIsDigitOrDot l current
        tokenizeF l f j (acc ++ [⟨"NUMBER", listSlice l current j, current, j⟩])
      else if c = '-' && (l.get? (current + 1)).any jsIsDigit then
        let j := scanWhileFrom jsIsDigitOrDot l (current + 1)
        tokenizeF l f j (acc ++ [⟨"NUMBER", listSlice l current j, current, j⟩])
      else if jsIsIdentStart c then
        let j := scanWhileFrom jsIsIdentChar l current
        let v := listSlice l current j
        tokenizeF l f j
          (acc ++ [⟨if isKeyword v then "KEYWORD" else "IDENTIFIER", v, current, j⟩])
      else if c = '=' && l.get? (current + 1) = some '=' then
        tokenizeF l f (current + 2) (acc ++ [⟨"OPERATOR", "==", current, current + 2⟩])
      else if c = '!' && l.get? (current + 1) = some '=' then
        tokenizeF l f (current + 2) (acc ++ [⟨"OPERATOR", "!=", current, current + 2⟩])
      else if c = '>' && l.get? (current + 1) = some '=' then
        tokenizeF l f (current + 2) (acc ++ [⟨"OPERATOR", ">=", current, current + 2⟩])
      else if c = '<' && l.get? (current + 1) = some '=' then
        tokenizeF l f (current + 2) (acc ++ [⟨"OPERATOR", "<=", current, current + 2⟩])
      else if c = '&' && l.get? (current + 1) = some '&' then
        tokenizeF l f (current + 2) (acc ++ [⟨"OPERATOR", "and", current, current + 2⟩])
      else if c = '|' && l.get? (current + 1) = some '|' then
        tokenizeF l f (current + 2) (acc ++ [⟨"OPERATOR", "or", current, current + 2⟩])
      else
        tokenizeF l f (current + 1)
          (acc ++ [⟨"SYMBOL", String.mk [c], current, current + 1⟩])

/-- Run the tokenizer.  Every iteration of the `tokenize` loop advances
`current` by at least one, so `l.length + 1` fuel is what the JS loop
actually uses. -/
def tokenizeRun (l : List Char) : Option (Except Nat (List Token)) :=
  tokenizeF l (l.length + 1) 0 []

/-- The message of the `LexicalError` thrown by `tokenize`. -/
def unterminatedMsg (s : Nat) : String :=
  "Unterminated string at position " ++ Nat.repr s

/-- `!input || input.trim() === \x27\x27`: every character is whitespace. -/
def jsTrimEmpty (s : String) : Bool := s.toList.all jsIsSpace

/-! ## AST

JS AST objects are modelled by two inductives: `Expr` for nodes built by
the expression routines (including `Property` and the `ThrowStatement`
node, which the reference produces in expression position from
`parsePrimary`) and `Stmt` for statement nodes.  Every JS node stores
`start`/`end` offsets; `end` is called `stop` here.  A `BlockStatement`
carries *no* `start`/`end` in the reference, so node fields whose value
is copied from a block's `end` are `Option Nat` (`none` = JS
`undefined`). -/

/-- The JS `value` field of a `Literal` node.  For numbers the reference
stores `Number(raw)`; the checker observes only `typeof value` and
`Number.isInteger(value)`, and for raws produced by this lexer the latter
is determined by `raw` (see `inferType`), so only `raw` is kept. -/
inductive LitVal where
  | num (raw : String)
  | str (s : String)
  | bool (b : Bool)
  | null
deriving DecidableEq, Repr

inductive Expr where
  | literal (value : LitVal) (raw : String) (start stop : Nat)
  | identifier (name : String) (start stop : Nat)
  | logical (operator : String) (left right : Expr) (start stop : Nat)
  | binary (operator : String) (left right : Expr) (start stop : Nat)
  | unary (operator : String) (argument : Expr) (start stop : Nat)
  | call (callee : Expr) (arguments : List Expr) (start stop : Nat)
  | member (object : Expr) (property : Expr) (start stop : Nat)
  | arrayExpr (elements : List Expr) (start stop : Nat)
  | objectExpr (properties : List Expr) (start stop : Nat)
  | property (key : Token) (value : Expr) (start stop : Nat)
  | throwStmt (argument : Option Expr) (start stop : Nat)
deriving Repr

inductive Stmt where
  | varDecl (declaredType : Option String) (name : String) (init : Option Expr)
      (isStatic : Bool) (start stop : Nat)
  | ifStmt (test : Option Expr) (consequent alternate : Option Stmt)
      (start : Nat) (stop : Option Nat)
  | blockStmt (body : List (Option Stmt))
  | whileStmt (test : Option Expr) (body : Option Stmt) (start : Nat) (stop : Option Nat)
  | doWhileStmt (test : Expr) (body : Stmt) (start stop : Nat)
  | forStmt (init : Option (Sum Stmt Expr)) (test update : Option Expr) (body : Stmt)
      (start stop : Nat)
  | funDecl (id : Expr) (params : List String) (body : Stmt) (start stop : Nat)
  | classDecl (id : Expr) (body : Stmt) (start stop : Nat)
  | returnStmt (argument : Option Expr) (start stop : Nat)
  | exprStmt (expression : Expr) (start stop : Nat)
  | assignExpr (left right : Expr) (start stop : Nat)
  | matchStmt (discriminant : Option Expr) (cases : List Stmt) (start stop : Nat)
  | matchCase (test : Expr) (consequent : Option Stmt) (start : Nat) (stop : Option Nat)
  | matchDefault (consequent : Option Stmt) (start : Nat) (stop : Option Nat)
  | tryStmt (block : Stmt) (handlers : List Stmt) (finalizer : Option Stmt) (start stop : Nat)
  | catchClause (param : Option Expr) (body : Stmt) (start : Nat) (stop : Option Nat)
  | finallyClause (body : Stmt) (start : Nat) (stop : Option Nat)
  | retryStmt (count : Expr) (body : Stmt) (handler : Option Stmt) (start stop : Nat)
deriving Repr

/-- `expr.start`. -/
def exprStart : Expr → Nat
  | .literal _ _ s _ => s
  | .identifier _ s _ => s
  | .logical _ _ _ s _ => s
  | .binary _ _ _ s _ => s
  | .unary _ _ s _ => s
  | .call _ _ s _ => s
  | .member _ _ s _ => s
  | .arrayExpr _ s _ => s
  | .objectExpr _ s _ => s
  | .property _ _ s _ => s
  | .throwStmt _ s _ => s

/-- `expr.end`. -/
def exprEnd : Expr → Nat
  | .literal _ _ _ e => e
  | .identifier _ _ e => e
  | .logical _ _ _ _ e => e
  | .binary _ _ _ _ e => e
  | .unary _ _ _ e => e
  | .call _ _ _ e => e
  | .member _ _ _ e => e
  | .arrayExpr _ _ e => e
  | .objectExpr _ _ e => e
  | .property _ _ _ e => e
  | .throwStmt _ _ e => e

/-- `expr.type === \x27Identifier\x27`. -/
def exprIsIdentifier : Expr → Bool
  | .identifier _ _ _ => true
  | _ => false

/-- `stmt.end` (`none` = JS `undefined`: `BlockStatement` has no `end`
field, and several node kinds copy a block's `end`). -/
def stmtEnd : Stmt → Option Nat
  | .varDecl _ _ _ _ _ e => some e
  | .ifStmt _ _ _ _ e => e
  | .blockStmt _ => none
  | .whileStmt _ _ _ e => e
  | .doWhileStmt _ _ _ e => some e
  | .forStmt _ _ _ _ _ e => some e
  | .funDecl _ _ _ _ e => some e
  | .classDecl _ _ _ e => some e
  | .returnStmt _ _ e => some e
  | .exprStmt _ _ e => some e
  | .assignExpr _ _ _ e => some e
  | .matchStmt _ _ _ e => some e
  | .matchCase _ _ _ e => e
  | .matchDefault _ _ e => e
  | .tryStmt _ _ _ _ e => some e
  | .catchClause _ _ _ e => e
  | .finallyClause _ _ e => e
  | .retryStmt _ _ _ _ e => some e

/-- The result of `parse`: `{type: \x27Program\x27, body, errors}`.  (For
empty/whitespace-only input the reference omits the `errors` field; this
is modelled as `[]`.) -/
structure Program where
  body : List Stmt
  errors : List PError
deriving Repr

/-! ## Parser state and monads

`Ctx` holds `this.input` and `this.tokens`, which are fixed during a
parse.  Expression-level routines of the reference read and write only
`this.position`, so they live in `EM` (position state); statement-level
routines also append to `this.errors`, so they live in `SM`.  The
`Option` layer is fuel exhaustion; an `Except.error` is a pending JS
exception.  A thrown exception does *not* roll back state, exactly as JS
mutation of `this` survives a `throw`. -/

structure Ctx where
  input : List Char
  tokens : List Token

/-- `this.currentToken()`. -/
def curTokAt (ctx : Ctx) (pos : Nat) : Option Token := ctx.tokens.get? pos

/-- `this.nextToken()` (advances only while in range). -/
def advanceTok (ctx : Ctx) (pos : Nat) : Nat :=
  if pos < ctx.tokens.length then pos + 1 else pos

/-- Expression-parser monad: position state, JS exceptions, fuel. -/
def EM (α : Type) : Type := Nat → Option (Except String α × Nat)

instance : Monad EM where
  pure a := fun pos => some (.ok a, pos)
  bind m k := fun pos =>
    match m pos with
    | none => none
    | some (.error e, p) => some (.error e, p)
    | some (.ok a, p) => k a p

def emFail {α : Type} : EM α := fun _ => none
def emThrow {α : Type} (msg : String) : EM α := fun pos => some (.error msg, pos)
def emCur (ctx : Ctx) : EM (Option Token) := fun pos => some (.ok (curTokAt ctx pos), pos)
def emNext (ctx : Ctx) : EM Unit := fun pos => some (.ok (), advanceTok ctx pos)

/-- Parser statement-level state: `this.position` and `this.errors`. -/
structure PState where
  position : Nat
  errors : List PError
deriving Repr

/-- Statement-parser monad. -/
def SM (α : Type) : Type := PState → Option (Except String α × PState)

instance : Monad SM where
  pure a := fun st => some (.ok a, st)
  bind m k := fun st =>
    match m st with
    | none => none
    | some (.error e, s) => some (.error e, s)
    | some (.ok a, s) => k a s

def smFail {α : Type} : SM α := fun _ => none
def smThrow {α : Type} (msg : String) : SM α := fun st => some (.error msg, st)

def smLift {α : Type} (m : EM α) : SM α := fun st =>
  match m st.position with
  | none => none
  | some (r, pos) => some (r, { st with position := pos })

/-- `this.addError(message, start, end)`. -/
def smAddError (message : String) (start stop : Nat) : SM Unit := fun st =>
  some (.ok (), { st with errors := st.errors ++ [⟨message, start, stop⟩] })

def smCur (ctx : Ctx) : SM (Option Token) := smLift (emCur ctx)
def smNext (ctx : Ctx) : SM Unit := smLift (emNext ctx)
def smGetPos : SM Nat := fun st => some (.ok st.position, st)
def smSetPos (pos : Nat) : SM Unit := fun st => some (.ok (), { st with position := pos })

/-- The `try \x7b ... \x7d catch (e) \x7b ... \x7d` of `parseStatement`. -/
def smTry {α : Type} (m : SM α) (handler : String → SM α) : SM α := fun st =>
  match m st with
  | none => none
  | some (.ok a, s) => some (.ok a, s)
  | some (.error e, s) => handler e s

/-- The skip loops of the reference,
`while (this.currentToken() && !p(this.currentToken())) this.nextToken()`:
the position of the first token at or after `pos` satisfying `p`, else
`tokens.length`. -/
def skipUntilPos (ctx : Ctx) (p : Token → Bool) (pos : Nat) : Nat :=
  pos + ((ctx.tokens.drop pos).takeWhile (fun t => !(p t))).length

/-- `NeutronParser.isStatementStart`. -/
def isStatementStart (t : Token) : Bool :=
  ([ "var", "if", "while", "do", "for", "fun", "class", "return", "match",
     "retry", "try" ] : List String).contains t.value
  || t.tokType = "IDENTIFIER"

/-- `NeutronParser.skipToNextStatement` as a position transformer: stop at
`;` (consumed), at a block delimiter (unconsumed), or at a
statement-starting token (unconsumed). -/
def skipToNextStatementPos (ctx : Ctx) (pos : Nat) : Nat :=
  let idx := skipUntilPos ctx
    (fun t => t.value = ";" || t.value = "\x7d" || t.value = "\x7b" || isStatementStart t) pos
  match curTokAt ctx idx with
  | some t => if t.value = ";" then advanceTok ctx idx else idx
  | none => idx

def smSkipToNext (ctx : Ctx) : SM Unit := do
  let pos ← smGetPos
  smSetPos (skipToNextStatementPos ctx pos)

/-- The V8 `TypeError` message produced when the reference dereferences
`this.currentToken().<field>` while `currentToken()` is `null` (several
throw sites build their message from `this.currentToken().start` without
a null check). -/
def nullRead (field : String) : String :=
  "Cannot read properties of null (reading \x27" ++ field ++ "\x27)"

/-- Does `pat` occur as a contiguous sublist of `l`? -/
def listContainsSub (pat : List Char) : List Char → Bool
  | [] => pat.isEmpty
  | c :: rest => pat.isPrefixOf (c :: rest) || listContainsSub pat rest

/-- `token.value.includes(pat)`. -/
def jsIncludes (s pat : String) : Bool := listContainsSub pat.toList s.toList

/-! ## The parser

The mutually recursive methods of `NeutronParser` are modelled as a
fuel-indexed family `mkParsers ctx fuel : Parsers`: every method at fuel
`f + 1` calls its callees at fuel `f`, so the family is a plain structural
recursion on `Nat` and a run with enough fuel computes the reference's
result.  `while` loops of the reference that contain recursive parse
calls are explicit `...Loop` members; pure token-skipping loops are the
`skipUntilPos` function above. -/

structure Parsers where
  pExpression : EM Expr
  pLogicalOr : EM Expr
  pLogicalOrLoop : Expr → EM Expr
  pLogicalAnd : EM Expr
  pLogicalAndLoop : Expr → EM Expr
  pEquality : EM Expr
  pEqualityLoop : Expr → EM Expr
  pRelational : EM Expr
  pRelationalLoop : Expr → EM Expr
  pAdditive : EM Expr
  pAdditiveLoop : Expr → EM Expr
  pMultiplicative : EM Expr
  pMultiplicativeLoop : Expr → EM Expr
  pUnary : EM Expr
  pPrimary : EM Expr
  pCallExpression : Expr → EM Expr
  pCallArgs : List Expr → EM (List Expr)
  pMemberExpression : Expr → EM Expr
  pArrayExpression : EM Expr
  pArrayElems : List Expr → EM (List Expr)
  pObjectExpression : EM Expr
  pObjectProps : List Expr → EM (List Expr)
  pObjectProperty : EM Expr
  pThrowStatement : EM Expr
  sStatement : SM (Option Stmt)
  sVariableDeclaration : SM Stmt
  sIfStatement : SM Stmt
  sBlock : SM Stmt
  sBlockLoop : List (Option Stmt) → SM (List (Option Stmt))
  sWhileStatement : SM Stmt
  sDoWhileStatement : SM Stmt
  sForStatement : SM Stmt
  sFunctionDeclaration : SM Stmt
  sFunParams : List String → SM (List String)
  sClassDeclaration : SM Stmt
  sReturnStatement : SM Stmt
  sExpressionStatement : SM Stmt
  sAssignmentExpression : Expr → SM Stmt
  sMatchStatement : SM Stmt
  sMatchCases : List Stmt → SM (List Stmt)
  sMatchCase : SM Stmt
  sMatchDefault : SM Stmt
  sRetryStatement : SM Stmt
  sTryStatement : SM Stmt
  sCatchClause : SM Stmt
  sFinallyClause : SM Stmt
  sProgram : List Stmt → SM (List Stmt)

/-- The fuel-0 pack: every routine reports fuel exhaustion. -/
def failParsers : Parsers where
  pExpression := emFail
  pLogicalOr := emFail
  pLogicalOrLoop := fun _ => emFail
  pLogicalAnd := emFail
  pLogicalAndLoop := fun _ => emFail
  pEquality := emFail
  pEqualityLoop := fun _ => emFail
  pRelational := emFail
  pRelationalLoop := fun _ => emFail
  pAdditive := emFail
  pAdditiveLoop := fun _ => emFail
  pMultiplicative := emFail
  pMultiplicativeLoop := fun _ => emFail
  pUnary := emFail
  pPrimary := emFail
  pCallExpression := fun _ => emFail
  pCallArgs := fun _ => emFail
  pMemberExpression := fun _ => emFail
  pArrayExpression := emFail
  pArrayElems := fun _ => emFail
  pObjectExpression := emFail
  pObjectProps := fun _ => emFail
  pObjectProperty := emFail
  pThrowStatement := emFail
  sStatement := smFail
  sVariableDeclaration := smFail
  sIfStatement := smFail
  sBlock := smFail
  sBlockLoop := fun _ => smFail
  sWhileStatement := smFail
  sDoWhileStatement := smFail
  sForStatement := smFail
  sFunctionDeclaration := smFail
  sFunParams := fun _ => smFail
  sClassDeclaration := smFail
  sReturnStatement := smFail
  sExpressionStatement := smFail
  sAssignmentExpression := fun _ => smFail
  sMatchStatement := smFail
  sMatchCases := fun _ => smFail
  sMatchCase := smFail
  sMatchDefault := smFail
  sRetryStatement := smFail
  sTryStatement := smFail
  sCatchClause := smFail
  sFinallyClause := smFail
  sProgram := fun _ => smFail

/-- The part of `parseVariableDeclaration` from the optional initializer
(`if currentToken is =`) to the end: the semicolon check either consumes
the `;`, or records the soft missing-semicolon ParseError spanning from
the name token's end to the end of the physical line.  (The reference's
single method is split into the three `parseVarDecl...` stages purely so
the proofs can reason about each stage; their composition is the
method.) -/
def parseVarDeclAfterName (ctx : Ctx) (p : Parsers) (startToken : Token)
    (isStatic : Bool) (declaredType : Option String) (nameToken : Token) : SM Stmt := do
  let init ← (do
    match ← smCur ctx with
    | some t =>
      if t.value = "=" then do
        smNext ctx
        let e ← smLift p.pExpression
        pure (some e)
      else pure none
    | none => pure none)
  match ← smCur ctx with
  | some t =>
    if t.value = ";" then do
      smNext ctx
      let c2 ← smCur ctx
      pure (Stmt.varDecl declaredType nameToken.value init isStatic startToken.start
        (match c2 with | some t2 => t2.start | none => nameToken.stop + 1))
    else do
      let lineEnd := findEndOfLine ctx.input nameToken.stop
      smAddError "Missing semicolon at end of variable declaration"
        nameToken.stop lineEnd
      pure (Stmt.varDecl declaredType nameToken.value init isStatic
        startToken.start nameToken.stop)
  | none => do
      let lineEnd := findEndOfLine ctx.input nameToken.stop
      smAddError "Missing semicolon at end of variable declaration"
        nameToken.stop lineEnd
      pure (Stmt.varDecl declaredType nameToken.value init isStatic
        startToken.start nameToken.stop)

/-- The part of `parseVariableDeclaration` after the `static`/`var`
prefix: optional type annotation, then the mandatory identifier. -/
def parseVarDeclAfterStatic (ctx : Ctx) (p : Parsers) (startToken : Token)
    (isStatic : Bool) : SM Stmt := do
  let declaredType ← (do
    match ← smCur ctx with
    | some t =>
      if isTypeKeyword t.value then do
        smNext ctx
        pure (some t.value)
      else pure none
    | none => pure none)
  match ← smCur ctx with
  | none => smThrow (nullRead "start")
  | some nameToken =>
    if nameToken.tokType ≠ "IDENTIFIER" then
      smThrow ("Expected identifier at position " ++ Nat.repr nameToken.start)
    else do
      smNext ctx
      parseVarDeclAfterName ctx p startToken isStatic declaredType nameToken

/-- One fuel layer of every `NeutronParser` method; `p` is the
fuel-decremented pack used for all recursive calls. -/
def stepParsers (ctx : Ctx) (p : Parsers) : Parsers where
  -- parseExpression
  pExpression := p.pLogicalOr
  -- parseLogicalOr
  pLogicalOr := do
    let e ← p.pLogicalAnd
    p.pLogicalOrLoop e
  pLogicalOrLoop := fun expr => do
    match ← emCur ctx with
    | some t =>
      if t.value = "or" then do
        emNext ctx
        let right ← p.pLogicalAnd
        p.pLogicalOrLoop (.logical "or" expr right (exprStart expr) (exprEnd right))
      else pure expr
    | none => pure expr
  -- parseLogicalAnd
  pLogicalAnd := do
    let e ← p.pEquality
    p.pLogicalAndLoop e
  pLogicalAndLoop := fun expr => do
    match ← emCur ctx with
    | some t =>
      if t.value = "and" then do
        emNext ctx
        let right ← p.pEquality
        p.pLogicalAndLoop (.logical "and" expr right (exprStart expr) (exprEnd right))
      else pure expr
    | none => pure expr
  -- parseEquality
  pEquality := do
    let e ← p.pRelational
    p.pEqualityLoop e
  pEqualityLoop := fun expr => do
    match ← emCur ctx with
    | some t =>
      if t.value = "==" || t.value = "!=" then do
        emNext ctx
        let right ← p.pRelational
        p.pEqualityLoop (.binary t.value expr right (exprStart expr) (exprEnd right))
      else pure expr
    | none => pure expr
  -- parseRelational
  pRelational := do
    let e ← p.pAdditive
    p.pRelationalLoop e
  pRelationalLoop := fun expr => do
    match ← emCur ctx with
    | some t =>
      if ([ "<", "<=", ">", ">=" ] : List String).contains t.value then do
        emNext ctx
        let right ← p.pAdditive
        p.pRelationalLoop (.binary t.value expr right (exprStart expr) (exprEnd right))
      else pure expr
    | none => pure expr
  -- parseAdditive
  pAdditive := do
    let e ← p.pMultiplicative
    p.pAdditiveLoop e
  pAdditiveLoop := fun expr => do
    match ← emCur ctx with
    | some t =>
      if t.value = "+" || t.value = "-" then do
        emNext ctx
        let right ← p.pMultiplicative
        p.pAdditiveLoop (.binary t.value expr right (exprStart expr) (exprEnd right))
      else pure expr
    | none => pure expr
  -- parseMultiplicative
  pMultiplicative := do
    let e ← p.pUnary
    p.pMultiplicativeLoop e
  pMultiplicativeLoop := fun expr => do
    match ← emCur ctx with
    | some t =>
      if ([ "*", "/", "%" ] : List String).contains t.value then do
        emNext ctx
        let right ← p.pUnary
        p.pMultiplicativeLoop (.binary t.value expr right (exprStart expr) (exprEnd right))
      else pure expr
    | none => pure expr
  -- parseUnary
  pUnary := do
    match ← emCur ctx with
    | some t =>
      if t.value = "not" then do
        emNext ctx
        let argument ← p.pUnary
        pure (.unary "not" argument t.start (exprEnd argument))
      else p.pPrimary
    | none => p.pPrimary
  -- parsePrimary
  pPrimary := do
    match ← emCur ctx with
    | none => emThrow "Unexpected end of input"
    | some token =>
      if token.tokType = "NUMBER" then do
        emNext ctx
        pure (.literal (.num token.value) token.value token.start token.stop)
      else if token.tokType = "STRING" then do
        emNext ctx
        -- a value containing "$\x7b" goes through parseTemplateLiteral,
        -- which returns a Literal of the same shape
        if jsIncludes token.value "$\x7b" then
          pure (.literal (.str token.value) token.value token.start token.stop)
        else
          pure (.literal (.str token.value) token.value token.start token.stop)
      else if token.value = "true" || token.value = "false" then do
        emNext ctx
        pure (.literal (.bool (token.value = "true")) token.value token.start token.stop)
      else if token.value = "nil" then do
        emNext ctx
        pure (.literal .null token.value token.start token.stop)
      else if token.tokType = "IDENTIFIER" then do
        let identifier := Expr.identifier token.value token.start token.stop
        emNext ctx
        match ← emCur ctx with
        | some t2 =>
          if t2.value = "(" then p.pCallExpression identifier
          else if t2.value = "." then p.pMemberExpression identifier
          else pure identifier
        | none => pure identifier
      else if token.value = "(" then do
        emNext ctx
        let expr ← p.pExpression
        match ← emCur ctx with
        | none => emThrow (nullRead "start")
        | some t2 =>
          if t2.value = ")" then do
            emNext ctx
            pure expr
          else emThrow ("Expected \x27)\x27 at position " ++ Nat.repr t2.start)
      else if token.value = "throw" then p.pThrowStatement
      else if token.value = "[" then p.pArrayExpression
      else if token.value = "\x7b" then p.pObjectExpression
      else emThrow ("Unexpected token \x27" ++ token.value ++ "\x27 at position "
        ++ Nat.repr token.start)
  -- parseCallExpression
  pCallExpression := fun callee => do
    match ← emCur ctx with
    | none => emThrow (nullRead "start")
    | some t =>
      if t.value = "(" then do
        emNext ctx
        let args ← (do
          match ← emCur ctx with
          | some t2 =>
            if t2.value = ")" then pure ([] : List Expr)
            else do
              let a ← p.pExpression
              p.pCallArgs [a]
          | none => pure [])
        match ← emCur ctx with
        | none => emThrow (nullRead "start")
        | some t3 =>
          if t3.value = ")" then do
            emNext ctx
            pure (.call callee args (exprStart callee) t3.stop)
          else emThrow ("Expected \x27)\x27 to close function call at position "
            ++ Nat.repr t3.start)
      else emThrow ("Expected \x27(\x27 for function call at position " ++ Nat.repr t.start)
  pCallArgs := fun acc => do
    match ← emCur ctx with
    | some t =>
      if t.value = "," then do
        emNext ctx
        let a ← p.pExpression
        p.pCallArgs (acc ++ [a])
      else pure acc
    | none => pure acc
  -- parseMemberExpression
  pMemberExpression := fun object => do
    match ← emCur ctx with
    | none => emThrow (nullRead "start")
    | some t =>
      if t.value = "." then do
        emNext ctx
        match ← emCur ctx with
        | none => emThrow (nullRead "start")
        | some t2 =>
          if t2.tokType = "IDENTIFIER" then do
            let property := Expr.identifier t2.value t2.start t2.stop
            emNext ctx
            match ← emCur ctx with
            | some t3 =>
              if t3.value = "(" then
                p.pCallExpression (.member object property (exprStart object) t2.stop)
              else pure (.member object property (exprStart object) t2.stop)
            | none => pure (.member object property (exprStart object) t2.stop)
          else emThrow ("Expected identifier after \x27.\x27 at position "
            ++ Nat.repr t2.start)
      else emThrow ("Expected \x27.\x27 for member access at position " ++ Nat.repr t.start)
  -- parseArrayExpression (the `none` start case is unreachable: callers
  -- dispatch on the current token)
  pArrayExpression := do
    match ← emCur ctx with
    | none => emThrow (nullRead "start")
    | some startToken => do
      emNext ctx
      let elements ← (do
        match ← emCur ctx with
        | some t2 =>
          if t2.value = "]" then pure ([] : List Expr)
          else do
            let e ← p.pExpression
            p.pArrayElems [e]
        | none => pure [])
      match ← emCur ctx with
      | none => emThrow (nullRead "start")
      | some t3 =>
        if t3.value = "]" then do
          emNext ctx
          pure (.arrayExpr elements startToken.start t3.stop)
        else emThrow ("Expected \x27]\x27 to close array at position " ++ Nat.repr t3.start)
  pArrayElems := fun acc => do
    match ← emCur ctx with
    | some t =>
      if t.value = "," then do
        emNext ctx
        let e ← p.pExpression
        p.pArrayElems (acc ++ [e])
      else pure acc
    | none => pure acc
  -- parseObjectExpression
  pObjectExpression := do
    match ← emCur ctx with
    | none => emThrow (nullRead "start")
    | some startToken => do
      emNext ctx
      let properties ← (do
        match ← emCur ctx with
        | some t2 =>
          if t2.value = "\x7d" then pure ([] : List Expr)
          else do
            let pr ← p.pObjectProperty
            p.pObjectProps [pr]
        | none => pure [])
      match ← emCur ctx with
      | none => emThrow (nullRead "start")
      | some t3 =>
        if t3.value = "\x7d" then do
          emNext ctx
          pure (.objectExpr properties startToken.start t3.stop)
        else emThrow ("Expected \x27\x7d\x27 to close object at position "
          ++ Nat.repr t3.start)
  pObjectProps := fun acc => do
    match ← emCur ctx with
    | some t =>
      if t.value = "," then do
        emNext ctx
        let pr ← p.pObjectProperty
        p.pObjectProps (acc ++ [pr])
      else pure acc
    | none => pure acc
  -- parseObjectProperty
  pObjectProperty := do
    match ← emCur ctx with
    | none => emThrow (nullRead "start")
    | some key =>
      if key.tokType = "STRING" then do
        emNext ctx
        match ← emCur ctx with
        | none => emThrow (nullRead "start")
        | some t2 =>
          if t2.value = ":" then do
            emNext ctx
            let value ← p.pExpression
            pure (.property key value key.start (exprEnd value))
          else emThrow ("Expected \x27:\x27 after object property key at position "
            ++ Nat.repr t2.start)
      else emThrow ("Expected string key for object property at position "
        ++ Nat.repr key.start)
  -- parseThrowStatement (reached from parsePrimary)
  pThrowStatement := do
    match ← emCur ctx with
    | none => emThrow (nullRead "start")
    | some startToken => do
      emNext ctx
      let argument ← (do
        match ← emCur ctx with
        | some t2 =>
          if t2.value ≠ ";" && t2.value ≠ "\x7d" && t2.value ≠ "\n" then do
            let a ← p.pExpression
            pure (some a)
          else pure none
        | none => pure none)
      (do
        match ← emCur ctx with
        | some t3 => if t3.value = ";" then emNext ctx else pure ()
        | none => pure ())
      pure (.throwStmt argument startToken.start
        (match argument with | some a => exprEnd a | none => startToken.stop + 5))
  -- parseStatement: keyword dispatch wrapped in try/catch; the catch
  -- records the exception message against the statement's first token and
  -- resynchronizes
  sStatement := do
    match ← smCur ctx with
    | none => pure none
    | some token =>
      smTry
        (if token.value = "static" || token.value = "var" then do
          let s ← p.sVariableDeclaration
          pure (some s)
        else if token.value = "if" then do
          let s ← p.sIfStatement
          pure (some s)
        else if token.value = "while" then do
          let s ← p.sWhileStatement
          pure (some s)
        else if token.value = "do" then do
          let s ← p.sDoWhileStatement
          pure (some s)
        else if token.value = "for" then do
          let s ← p.sForStatement
          pure (some s)
        else if token.value = "fun" then do
          let s ← p.sFunctionDeclaration
          pure (some s)
        else if token.value = "class" then do
          let s ← p.sClassDeclaration
          pure (some s)
        else if token.value = "return" then do
          let s ← p.sReturnStatement
          pure (some s)
        else if token.value = "match" then do
          let s ← p.sMatchStatement
          pure (some s)
        else if token.value = "retry" then do
          let s ← p.sRetryStatement
          pure (some s)
        else if token.value = "try" then do
          let s ← p.sTryStatement
          pure (some s)
        else if token.tokType = "IDENTIFIER" then do
          let s ← p.sExpressionStatement
          pure (some s)
        else do
          smSkipToNext ctx
          pure none)
        (fun e => do
          smAddError e token.start token.stop
          smSkipToNext ctx
          pure none)
  -- parseVariableDeclaration (the stages after the static/var prefix are
  -- the parseVarDecl... functions above)
  sVariableDeclaration := do
    match ← smCur ctx with
    | none => smThrow (nullRead "value")
    | some startToken =>
      if startToken.value = "static" then do
        smNext ctx
        (do
          match ← smCur ctx with
          | some t =>
            if t.value ≠ "var" then
              smThrow ("Expected \x27var\x27 after \x27static\x27 at position "
                ++ Nat.repr t.start)
            else pure ()
          | none => pure ())
        smNext ctx
        parseVarDeclAfterStatic ctx p startToken true
      else do
        smNext ctx
        parseVarDeclAfterStatic ctx p startToken false
  -- parseIfStatement
  sIfStatement := do
    match ← smCur ctx with
    | none => smThrow (nullRead "start")
    | some startToken => do
      smNext ctx
      let proceed ← (do
        match ← smCur ctx with
        | some t =>
          if t.value = "(" then pure true
          else do
            smAddError "Expected \x27(\x27 after \x27if\x27" t.start (t.start + 1)
            let pos ← smGetPos
            smSetPos (skipUntilPos ctx
              (fun u => u.value = "(" || u.value = "\x7b" || u.value = ";") pos)
            let c2 ← smCur ctx
            pure c2.isSome
        | none => do
            let ep := ctx.tokens.length - 1
            smAddError "Expected \x27(\x27 after \x27if\x27" ep (ep + 1)
            pure false)
      if proceed then do
        smNext ctx  -- skip what was found (the reference always consumes here)
        let test ← smLift p.pExpression
        (do
          match ← smCur ctx with
          | some t =>
            if t.value = ")" then smNext ctx
            else do
              smAddError "Expected \x27)\x27 after if condition" t.start (t.start + 1)
              let pos ← smGetPos
              smSetPos (skipUntilPos ctx
                (fun u => u.value = ")" || u.value = "\x7b" || u.value = ";") pos)
              match ← smCur ctx with
              | some u => if u.value = ")" then smNext ctx else pure ()
              | none => pure ()
          | none => do
              let ep := ctx.tokens.length - 1
              smAddError "Expected \x27)\x27 after if condition" ep (ep + 1))
        let consequent ← p.sBlock
        let alternate ← (do
          match ← smCur ctx with
          | some t =>
            if t.value = "else" then do
              smNext ctx
              match ← smCur ctx with
              | some t2 =>
                if t2.value = "if" then do
                  let s ← p.sIfStatement
                  pure (some s)
                else do
                  let s ← p.sBlock
                  pure (some s)
              | none => do
                  let s ← p.sBlock
                  pure (some s)
            else pure none
          | none => pure none)
        let cEnd ← smCur ctx
        pure (Stmt.ifStmt (some test) (some consequent) alternate startToken.start
          (match cEnd with | some t => some t.stop | none => stmtEnd consequent))
      else
        pure (Stmt.ifStmt none none none startToken.start (some startToken.stop))
  -- parseBlock
  sBlock := do
    match ← smCur ctx with
    | some t =>
      if t.value = "\x7b" then do
        smNext ctx
        let body ← p.sBlockLoop []
        (do
          match ← smCur ctx with
          | some _ => smNext ctx
          | none => pure ())
        pure (Stmt.blockStmt body)
      else do
        let s ← p.sStatement
        pure (Stmt.blockStmt [s])
    | none => do
        let s ← p.sStatement
        pure (Stmt.blockStmt [s])
  sBlockLoop := fun acc => do
    let pos ← smGetPos
    if pos < ctx.tokens.length then
      match curTokAt ctx pos with
      | some t =>
        if t.value = "\x7d" then pure acc
        else do
          let s ← p.sStatement
          match s with
          | some stmt => p.sBlockLoop (acc ++ [some stmt])
          | none => p.sBlockLoop acc
      | none => pure acc
    else pure acc
  -- parseWhileStatement
  sWhileStatement := do
    match ← smCur ctx with
    | none => smThrow (nullRead "start")
    | some startToken => do
      smNext ctx
      let proceed ← (do
        match ← smCur ctx with
        | some t =>
          if t.value = "(" then pure true
          else do
            smAddError "Expected \x27(\x27 after \x27while\x27" t.start (t.start + 1)
            let pos ← smGetPos
            smSetPos (skipUntilPos ctx
              (fun u => u.value = "(" || u.value = "\x7b" || u.value = ";") pos)
            let c2 ← smCur ctx
            pure c2.isSome
        | none => do
            let ep := ctx.tokens.length - 1
            smAddError "Expected \x27(\x27 after \x27while\x27" ep (ep + 1)
            pure false)
      if proceed then do
        smNext ctx
        let test ← smLift p.pExpression
        (do
          match ← smCur ctx with
          | some t =>
            if t.value = ")" then smNext ctx
            else do
              smAddError "Expected \x27)\x27 after while condition" t.start (t.start + 1)
              let pos ← smGetPos
              smSetPos (skipUntilPos ctx
                (fun u => u.value = ")" || u.value = "\x7b" || u.value = ";") pos)
              match ← smCur ctx with
              | some u => if u.value = ")" then smNext ctx else pure ()
              | none => pure ()
          | none => do
              let ep := ctx.tokens.length - 1
              smAddError "Expected \x27)\x27 after while condition" ep (ep + 1))
        let body ← p.sBlock
        let cEnd ← smCur ctx
        pure (Stmt.whileStmt (some test) (some body) startToken.start
          (match cEnd with | some t => some t.stop | none => stmtEnd body))
      else
        pure (Stmt.whileStmt none none startToken.start (some startToken.stop))
  -- parseDoWhileStatement
  sDoWhileStatement := do
    match ← smCur ctx with
    | none => smThrow (nullRead "start")
    | some startToken => do
      smNext ctx
      let body ← p.sBlock
      (do
        match ← smCur ctx with
        | none => smThrow (nullRead "start")
        | some t =>
          if t.value = "while" then pure ()
          else smThrow ("Expected \x27while\x27 after \x27do\x27 block at position "
            ++ Nat.repr t.start))
      smNext ctx
      (do
        match ← smCur ctx with
        | none => smThrow (nullRead "start")
        | some t =>
          if t.value = "(" then pure ()
          else smThrow ("Expected \x27(\x27 after \x27while\x27 in do-while at position "
            ++ Nat.repr t.start))
      smNext ctx
      let test ← smLift p.pExpression
      (do
        match ← smCur ctx with
        | none => smThrow (nullRead "start")
        | some t =>
          if t.value = ")" then pure ()
          else smThrow ("Expected \x27)\x27 after while condition at position "
            ++ Nat.repr t.start))
      smNext ctx
      (do
        match ← smCur ctx with
        | some t => if t.value = ";" then smNext ctx else pure ()
        | none => pure ())
      let cEnd ← smCur ctx
      pure (Stmt.doWhileStmt test body startToken.start
        (match cEnd with | some t => t.stop | none => startToken.stop))
  -- parseForStatement (hard-throwing; note the reference dereferences
  -- `this.currentToken().value` without a null check in the clause tests)
  sForStatement := do
    match ← smCur ctx with
    | none => smThrow (nullRead "start")
    | some startToken => do
      smNext ctx
      (do
        match ← smCur ctx with
        | none => smThrow (nullRead "start")
        | some t =>
          if t.value = "(" then pure ()
          else smThrow ("Expected \x27(\x27 after \x27for\x27 at position "
            ++ Nat.repr t.start))
      smNext ctx
      let init ← (do
        match ← smCur ctx with
        | none => smThrow (nullRead "value")
        | some t =>
          if t.value = ";" then pure none
          else if t.value = "var" then do
            let d ← p.sVariableDeclaration
            pure (some (Sum.inl d))
          else do
            let e ← smLift p.pExpression
            pure (some (Sum.inr e)))
      (do
        match ← smCur ctx with
        | none => smThrow (nullRead "start")
        | some t =>
          if t.value = ";" then pure ()
          else smThrow ("Expected \x27;\x27 after for init at position "
            ++ Nat.repr t.start))
      smNext ctx
      let test ← (do
        match ← smCur ctx with
        | none => smThrow (nullRead "value")
        | some t =>
          if t.value = ";" then pure none
          else do
            let e ← smLift p.pExpression
            pure (some e))
      (do
        match ← smCur ctx with
        | none => smThrow (nullRead "start")
        | some t =>
          if t.value = ";" then pure ()
          else smThrow ("Expected \x27;\x27 after for test at position "
            ++ Nat.repr t.start))
      smNext ctx
      let update ← (do
        match ← smCur ctx with
        | none => smThrow (nullRead "value")
        | some t =>
          if t.value = ")" then pure none
          else do
            let e ← smLift p.pExpression
            pure (some e))
      (do
        match ← smCur ctx with
        | none => smThrow (nullRead "start")
        | some t =>
          if t.value = ")" then pure ()
          else smThrow ("Expected \x27)\x27 after for update at position "
            ++ Nat.repr t.start))
      smNext ctx
      let body ← p.sBlock
      let cEnd ← smCur ctx
      pure (Stmt.forStmt init test update body startToken.start
        (match cEnd with | some t => t.stop | none => startToken.stop))
  -- parseFunctionDeclaration (hard-throwing)
  sFunctionDeclaration := do
    match ← smCur ctx with
    | none => smThrow (nullRead "start")
    | some startToken => do
      smNext ctx
      match ← smCur ctx with
      | none => smThrow (nullRead "start")
      | some nameToken =>
        if nameToken.tokType ≠ "IDENTIFIER" then
          smThrow ("Expected function name after \x27fun\x27 at position "
            ++ Nat.repr nameToken.start)
        else do
          smNext ctx
          (do
            match ← smCur ctx with
            | none => smThrow (nullRead "start")
            | some t =>
              if t.value = "(" then pure ()
              else smThrow ("Expected \x27(\x27 after function name at position "
                ++ Nat.repr t.start))
          smNext ctx
          let params ← (do
            match ← smCur ctx with
            | some t =>
              if t.value ≠ ")" then do
                let first ← (
                  if t.tokType = "IDENTIFIER" then do
                    smNext ctx
                    pure [t.value]
                  else pure ([] : List String))
                p.sFunParams first
              else pure []
            | none => pure [])
          (do
            match ← smCur ctx with
            | none => smThrow (nullRead "start")
            | some t =>
              if t.value = ")" then pure ()
              else smThrow ("Expected \x27)\x27 after function parameters at position "
                ++ Nat.repr t.start))
          smNext ctx
          let body ← p.sBlock
          let cEnd ← smCur ctx
          pure (Stmt.funDecl
            (.identifier nameToken.value nameToken.start nameToken.stop)
            params body startToken.start
            (match cEnd with | some t => t.stop | none => startToken.stop))
  sFunParams := fun acc => do
    match ← smCur ctx with
    | some t =>
      if t.value = "," then do
        smNext ctx
        match ← smCur ctx with
        | some t2 =>
          if t2.tokType = "IDENTIFIER" then do
            smNext ctx
            p.sFunParams (acc ++ [t2.value])
          else p.sFunParams acc
        | none => p.sFunParams acc
      else pure acc
    | none => pure acc
  -- parseClassDeclaration (hard-throwing; the `\x7b` is left for parseBlock)
  sClassDeclaration := do
    match ← smCur ctx with
    | none => smThrow (nullRead "start")
    | some startToken => do
      smNext ctx
      match ← smCur ctx with
      | none => smThrow (nullRead "start")
      | some nameToken =>
        if nameToken.tokType ≠ "IDENTIFIER" then
          smThrow ("Expected class name after \x27class\x27 at position "
            ++ Nat.repr nameToken.start)
        else do
          smNext ctx
          (do
            match ← smCur ctx with
            | none => smThrow (nullRead "start")
            | some t =>
              if t.value = "\x7b" then pure ()
              else smThrow ("Expected \x27\x7b\x27 to start class body at position "
                ++ Nat.repr t.start))
          let body ← p.sBlock
          let cEnd ← smCur ctx
          pure (Stmt.classDecl
            (.identifier nameToken.value nameToken.start nameToken.stop)
            body startToken.start
            (match cEnd with | some t => t.stop | none => startToken.stop))
  -- parseReturnStatement (note the `+ 6` applied to the end of the
  -- `return` token, not to its start)
  sReturnStatement := do
    match ← smCur ctx with
    | none => smThrow (nullRead "start")
    | some startToken => do
      smNext ctx
      let argument ← (do
        match ← smCur ctx with
        | some t =>
          if t.value ≠ ";" && t.value ≠ "\x7d" && t.value ≠ "\n" then do
            let e ← smLift p.pExpression
            pure (some e)
          else pure none
        | none => pure none)
      (do
        match ← smCur ctx with
        | some t => if t.value = ";" then smNext ctx else pure ()
        | none => pure ())
      pure (Stmt.returnStmt argument startToken.start
        (match argument with | some a => exprEnd a | none => startToken.stop + 6))
  -- parseExpressionStatement
  sExpressionStatement := do
    let expr ← smLift p.pExpression
    match ← smCur ctx with
    | some t =>
      if exprIsIdentifier expr && t.value = "=" then p.sAssignmentExpression expr
      else if t.value = ";" then do
        smNext ctx
        let c2 ← smCur ctx
        pure (Stmt.exprStmt expr (exprStart expr)
          (match c2 with | some u => u.start | none => exprEnd expr + 1))
      else pure (Stmt.exprStmt expr (exprStart expr) (exprEnd expr))
    | none => pure (Stmt.exprStmt expr (exprStart expr) (exprEnd expr))
  -- parseAssignmentExpression
  sAssignmentExpression := fun left => do
    (do
      match ← smCur ctx with
      | none => smThrow (nullRead "start")
      | some t =>
        if t.value = "=" then pure ()
        else smThrow ("Expected \x27=\x27 in assignment at position " ++ Nat.repr t.start))
    smNext ctx
    let right ← smLift p.pExpression
    match ← smCur ctx with
    | some t =>
      if t.value = ";" then do
        smNext ctx
        let c2 ← smCur ctx
        pure (Stmt.assignExpr left right (exprStart left)
          (match c2 with | some u => u.start | none => exprEnd right + 1))
      else pure (Stmt.assignExpr left right (exprStart left) (exprEnd right))
    | none => pure (Stmt.assignExpr left right (exprStart left) (exprEnd right))
  -- parseMatchStatement
  sMatchStatement := do
    match ← smCur ctx with
    | none => smThrow (nullRead "start")
    | some startToken => do
      smNext ctx
      let proceed ← (do
        match ← smCur ctx with
        | some t =>
          if t.value = "(" then pure true
          else do
            smAddError "Expected \x27(\x27 after \x27match\x27" t.start (t.start + 1)
            let pos ← smGetPos
            smSetPos (skipUntilPos ctx (fun u => u.value = "(" || u.value = "\x7b") pos)
            let c2 ← smCur ctx
            pure c2.isSome
        | none => do
            let ep := ctx.tokens.length - 1
            smAddError "Expected \x27(\x27 after \x27match\x27" ep (ep + 1)
            pure false)
      if proceed then do
        smNext ctx
        let discriminant ← smLift p.pExpression
        (do
          match ← smCur ctx with
          | some t =>
            if t.value = ")" then smNext ctx
            else do
              smAddError "Expected \x27)\x27 after match expression" t.start (t.start + 1)
              let pos ← smGetPos
              smSetPos (skipUntilPos ctx (fun u => u.value = ")" || u.value = "\x7b") pos)
              match ← smCur ctx with
              | some u => if u.value = ")" then smNext ctx else pure ()
              | none => pure ()
          | none => do
              let ep := ctx.tokens.length - 1
              smAddError "Expected \x27)\x27 after match expression" ep (ep + 1))
        let proceed2 ← (do
          match ← smCur ctx with
          | some t =>
            if t.value = "\x7b" then pure true
            else do
              smAddError "Expected \x27\x7b\x27 to start match body" t.start (t.start + 1)
              let pos ← smGetPos
              smSetPos (skipUntilPos ctx (fun u => u.value = "\x7b") pos)
              let c2 ← smCur ctx
              pure c2.isSome
          | none => do
              let ep := ctx.tokens.length - 1
              smAddError "Expected \x27\x7b\x27 to start match body" ep (ep + 1)
              pure false)
        if proceed2 then do
          smNext ctx
          let cases ← p.sMatchCases []
          (do
            match ← smCur ctx with
            | some t =>
              if t.value = "\x7d" then smNext ctx
              else do
                smAddError "Expected \x27\x7d\x27 to end match statement" t.start (t.start + 1)
            | none => do
                let ep := ctx.tokens.length - 1
                smAddError "Expected \x27\x7d\x27 to end match statement" ep (ep + 1))
          let cEnd ← smCur ctx
          pure (Stmt.matchStmt (some discriminant) cases startToken.start
            (match cEnd with
             | some t => t.stop
             | none =>
               match ctx.tokens.getLast? with
               | some last => last.stop
               | none => startToken.stop))
        else
          pure (Stmt.matchStmt (some discriminant) [] startToken.start startToken.stop)
      else
        pure (Stmt.matchStmt none [] startToken.start startToken.stop)
  sMatchCases := fun acc => do
    match ← smCur ctx with
    | some t =>
      if t.value = "\x7d" then pure acc
      else if t.value = "case" then do
        let c ← p.sMatchCase
        p.sMatchCases (acc ++ [c])
      else if t.value = "default" then do
        let c ← p.sMatchDefault
        p.sMatchCases (acc ++ [c])
      else do
        smAddError "Expected \x27case\x27 or \x27default\x27 in match statement"
          t.start (t.start + 1)
        let pos ← smGetPos
        smSetPos (skipUntilPos ctx
          (fun u => u.value = "case" || u.value = "default" || u.value = "\x7d") pos)
        match ← smCur ctx with
        | some u =>
          if u.value = "case" then do
            let c ← p.sMatchCase
            p.sMatchCases (acc ++ [c])
          else if u.value = "default" then do
            let c ← p.sMatchDefault
            p.sMatchCases (acc ++ [c])
          else p.sMatchCases acc
        | none => p.sMatchCases acc
    | none => pure acc
  -- parseMatchCase (the reference reads `consequent.end` without a null
  -- check; a null consequent raises a TypeError)
  sMatchCase := do
    match ← smCur ctx with
    | none => smThrow (nullRead "start")
    | some startToken => do
      smNext ctx
      let test ← smLift p.pExpression
      (do
        match ← smCur ctx with
        | none => smThrow (nullRead "start")
        | some t =>
          if t.value = "=>" then pure ()
          else smThrow ("Expected \x27=>\x27 after match case at position "
            ++ Nat.repr t.start))
      smNext ctx
      let consequent ← (do
        match ← smCur ctx with
        | some t =>
          if t.value = "\x7b" then do
            let b ← p.sBlock
            pure (some b)
          else p.sStatement
        | none => p.sStatement)
      match consequent with
      | none => smThrow (nullRead "end")
      | some c =>
        pure (Stmt.matchCase test (some c) startToken.start (stmtEnd c))
  sMatchDefault := do
    match ← smCur ctx with
    | none => smThrow (nullRead "start")
    | some startToken => do
      smNext ctx
      (do
        match ← smCur ctx with
        | none => smThrow (nullRead "start")
        | some t =>
          if t.value = "=>" then pure ()
          else smThrow ("Expected \x27=>\x27 after \x27default\x27 in match statement at position "
            ++ Nat.repr t.start))
      smNext ctx
      let consequent ← (do
        match ← smCur ctx with
        | some t =>
          if t.value = "\x7b" then do
            let b ← p.sBlock
            pure (some b)
          else p.sStatement
        | none => p.sStatement)
      match consequent with
      | none => smThrow (nullRead "end")
      | some c =>
        pure (Stmt.matchDefault (some c) startToken.start (stmtEnd c))
  -- parseRetryStatement (hard-throwing)
  sRetryStatement := do
    match ← smCur ctx with
    | none => smThrow (nullRead "start")
    | some startToken => do
      smNext ctx
      (do
        match ← smCur ctx with
        | none => smThrow (nullRead "start")
        | some t =>
          if t.value = "(" then pure ()
          else smThrow ("Expected \x27(\x27 after \x27retry\x27 at position "
            ++ Nat.repr t.start))
      smNext ctx
      let count ← smLift p.pExpression
      (do
        match ← smCur ctx with
        | none => smThrow (nullRead "start")
        | some t =>
          if t.value = ")" then pure ()
          else smThrow ("Expected \x27)\x27 after retry count at position "
            ++ Nat.repr t.start))
      smNext ctx
      let body ← p.sBlock
      let handler ← (do
        match ← smCur ctx with
        | some t =>
          if t.value = "catch" then do
            let h ← p.sCatchClause
            pure (some h)
          else pure none
        | none => pure none)
      let cEnd ← smCur ctx
      pure (Stmt.retryStmt count body handler startToken.start
        (match cEnd with | some t => t.stop | none => startToken.stop))
  -- parseTryStatement
  sTryStatement := do
    match ← smCur ctx with
    | none => smThrow (nullRead "start")
    | some startToken => do
      smNext ctx
      let block ← p.sBlock
      let handlers ← (do
        match ← smCur ctx with
        | some t =>
          if t.value = "catch" then do
            let h ← p.sCatchClause
            pure [h]
          else pure ([] : List Stmt)
        | none => pure [])
      let finalizer ← (do
        match ← smCur ctx with
        | some t =>
          if t.value = "finally" then do
            let fz ← p.sFinallyClause
            pure (some fz)
          else pure none
        | none => pure none)
      let cEnd ← smCur ctx
      pure (Stmt.tryStmt block handlers finalizer startToken.start
        (match cEnd with | some t => t.stop | none => startToken.stop))
  -- parseCatchClause (hard-throwing)
  sCatchClause := do
    match ← smCur ctx with
    | none => smThrow (nullRead "start")
    | some startToken => do
      smNext ctx
      (do
        match ← smCur ctx with
        | none => smThrow (nullRead "start")
        | some t =>
          if t.value = "(" then pure ()
          else smThrow ("Expected \x27(\x27 after \x27catch\x27 at position "
            ++ Nat.repr t.start))
      smNext ctx
      let param ← (do
        match ← smCur ctx with
        | some t =>
          if t.tokType = "IDENTIFIER" then do
            smNext ctx
            pure (some (Expr.identifier t.value t.start t.stop))
          else pure none
        | none => pure none)
      (do
        match ← smCur ctx with
        | none => smThrow (nullRead "start")
        | some t =>
          if t.value = ")" then pure ()
          else smThrow ("Expected \x27)\x27 after catch parameter at position "
            ++ Nat.repr t.start))
      smNext ctx
      let body ← p.sBlock
      pure (Stmt.catchClause param body startToken.start (stmtEnd body))
  -- parseFinallyClause
  sFinallyClause := do
    match ← smCur ctx with
    | none => smThrow (nullRead "start")
    | some startToken => do
      smNext ctx
      let body ← p.sBlock
      pure (Stmt.finallyClause body startToken.start (stmtEnd body))
  -- the statement loop of `parse`
  sProgram := fun acc => do
    let pos ← smGetPos
    if pos < ctx.tokens.length then do
      let s ← p.sStatement
      match s with
      | some stmt => p.sProgram (acc ++ [stmt])
      | none => p.sProgram acc
    else pure acc

/-- The fuel-indexed family of all `NeutronParser` methods. -/
def mkParsers (ctx : Ctx) : Nat → Parsers
  | 0 => failParsers
  | f + 1 => stepParsers ctx (mkParsers ctx f)

/-- `NeutronParser.parse(input)` on an instance whose `this.errors`
currently holds `errs0` (a freshly constructed parser has `errs0 = []`;
`parse` never resets `this.errors`).  Result: `none` = fuel exhausted
(the reference can genuinely diverge, see C3); `some (.error m)` = the
call aborted with a JS exception with message `m`; `some (.ok prog)` =
normal return. -/
def parseCall (fuel : Nat) (input : String) (errs0 : List PError) :
    Option (Except String Program) :=
  if jsTrimEmpty input then some (.ok ⟨[], []⟩)
  else
    let l := input.toList
    match tokenizeRun l with
    | none => none
    | some (.error s) => some (.error (unterminatedMsg s))
    | some (.ok tokens) =>
      match (mkParsers ⟨l, tokens⟩ fuel).sProgram [] ⟨0, errs0⟩ with
      | none => none
      | some (.error m, _) => some (.error m)
      | some (.ok stmts, st) => some (.ok ⟨stmts, st.errors⟩)

/-! ## The type checker (`src/server/typeChecker.js`, class `TypeChecker`)

The checker's mutable structures (`symbolTable`, `staticVariables`,
`assignedVariables`, the `errors` sink) are the state `TCState`.  The
document passed by the server is the source text itself (its only use is
`document.getText()` inside `getPositionFromIndex`).  The recursive walk
`checkNode`/`checkChildren` is modelled by a fuel-indexed pack
`mkCheckers doc fuel`, just like the parser. -/

/-- A `\x7bline, character\x7d` position, as computed by
`getPositionFromIndex`. -/
structure LCPos where
  line : Nat
  character : Nat
deriving DecidableEq, Repr

/-- `TypeChecker.getPositionFromIndex(document, index)`: count `\n` among
the first `min index length` characters; `character` counts the
characters after the last newline seen. -/
def getPositionFromIndex (text : String) (index : Nat) : LCPos :=
  let pre := text.toList.take index
  ⟨pre.count '\n', (pre.reverse.takeWhile (fun ch => ch ≠ '\n')).length⟩

/-- A diagnostic pushed by the checker:
`\x7bseverity, range: \x7bstart, end\x7d, message\x7d` (range flattened to
`rangeStart`/`rangeStop`). -/
structure Diag where
  severity : Nat
  rangeStart : LCPos
  rangeStop : LCPos
  message : String
deriving DecidableEq, Repr

/-- Checker state; `errors` is the caller-provided sink that `check`
appends to. -/
structure TCState where
  symbolTable : List (String × String)
  staticVariables : List String
  assignedVariables : List String
  errors : List Diag
deriving DecidableEq, Repr

/-- `Map.prototype.has`. -/
def tableHas (t : List (String × String)) (k : String) : Bool :=
  t.any (fun pr => pr.1 = k)

/-- `Map.prototype.get` (`none` = `undefined`). -/
def tableGet (t : List (String × String)) (k : String) : Option String :=
  (t.find? (fun pr => pr.1 = k)).map (·.2)

/-- `Map.prototype.set`: update in place or append. -/
def tableSet (t : List (String × String)) (k v : String) : List (String × String) :=
  if tableHas t k then t.map (fun pr => if pr.1 = k then (k, v) else pr)
  else t ++ [(k, v)]

/-- `Set.prototype.add`. -/
def setAdd (s : List String) (x : String) : List String :=
  if s.contains x then s else s ++ [x]

/-- `Number.isInteger(Number(raw))` for a raw produced by this lexer: a
raw without a `.` is a (possibly negated) digit string, whose JS number
value is always integral.  (For raws containing `.` the checker never
consults `Number.isInteger` — the `raw.includes(\x27.\x27)` branch fires
first — so that case is unobservable and modelled as `false`.) -/
def jsNumberIsInteger (raw : String) : Bool := !(raw.toList.contains '.')

/-- `TypeChecker.inferType(node)`, as a function of the current symbol
table (the only state it reads). -/
def inferType (table : List (String × String)) : Expr → String
  | .literal v raw _ _ =>
    match v with
    | .num _ =>
      if raw ≠ "" && raw.toList.contains '.' then "float"
      else if jsNumberIsInteger raw then "int" else "float"
    | .str _ =>
      if raw ≠ "" &&
          (match raw.toList with
           | ch :: _ => ch = '"' || ch = squote
           | [] => false) then "string"
      else "any"
    | .bool _ => "bool"
    | .null => "any"
  | .arrayExpr _ _ _ => "array"
  | .objectExpr _ _ _ => "object"
  | .identifier name _ _ => (tableGet table name).getD "any"
  | .binary op left right _ _ =>
    if ([ "==", "!=", "<", "<=", ">", ">=", "and", "or" ] : List String).contains op then
      "bool"
    else if ([ "+", "-", "*", "/", "%" ] : List String).contains op then
      let leftType := inferType table left
      let rightType := inferType table right
      if leftType = "int" && rightType = "int" && op ≠ "/" then "int" else "float"
    else "any"
  | .logical op left right _ _ =>
    if ([ "==", "!=", "<", "<=", ">", ">=", "and", "or" ] : List String).contains op then
      "bool"
    else if ([ "+", "-", "*", "/", "%" ] : List String).contains op then
      let leftType := inferType table left
      let rightType := inferType table right
      if leftType = "int" && rightType = "int" && op ≠ "/" then "int" else "float"
    else "any"
  | .unary op argument _ _ =>
    if op = "not" then "bool" else inferType table argument
  | .call _ _ _ _ => "any"
  | .member _ _ _ _ => "any"
  | .property _ _ _ _ => "any"
  | .throwStmt _ _ _ => "any"

/-- `TypeChecker.isCompatibleType(expected, actual)`. -/
def isCompatibleType (expected actual : String) : Bool :=
  if expected = actual then true
  else if expected = "any" || actual = "any" then true
  else if expected = "float" && actual = "int" then true
  else if actual = "nil" then true
  else false

/-- The checker walk: each member is `checkNode` restricted to one node
shape (`checkNode(null)` returns immediately, hence the `Option`
variants; `checkChildren` over an array visits each element). -/
structure Checkers where
  cStmt : Stmt → TCState → Option TCState
  cExpr : Expr → TCState → Option TCState
  cOptStmt : Option Stmt → TCState → Option TCState
  cOptExpr : Option Expr → TCState → Option TCState
  cStmtList : List Stmt → TCState → Option TCState
  cOptStmtList : List (Option Stmt) → TCState → Option TCState
  cExprList : List Expr → TCState → Option TCState

def failCheckers : Checkers where
  cStmt := fun _ _ => none
  cExpr := fun _ _ => none
  cOptStmt := fun _ _ => none
  cOptExpr := fun _ _ => none
  cStmtList := fun _ _ => none
  cOptStmtList := fun _ _ => none
  cExprList := fun _ _ => none

/-- `TypeChecker.checkVariableDeclaration`. -/
def checkVariableDeclarationC (doc : String) (c : Checkers)
    (declaredType : Option String) (name : String) (init : Option Expr)
    (isStatic : Bool) (start stop : Nat) (tc : TCState) : Option TCState :=
  if tableHas tc.symbolTable name then
    some { tc with errors := tc.errors ++
      [⟨1, getPositionFromIndex doc start, getPositionFromIndex doc stop,
        "Variable \x27" ++ name ++ "\x27 has already been declared"⟩] }
  else
    let tc := if isStatic then
        { tc with staticVariables := setAdd tc.staticVariables name }
      else tc
    match declaredType with
    | none =>
      -- `if (node.name)`: parser-produced names are non-empty strings
      let tc := if name ≠ "" then
          let tc2 := { tc with symbolTable := tableSet tc.symbolTable name "any" }
          if init.isSome then
            { tc2 with assignedVariables := setAdd tc2.assignedVariables name }
          else tc2
        else tc
      match init with
      | some e => c.cExpr e tc
      | none => some tc
    | some dt =>
      match init with
      | some e =>
        let actualType := inferType tc.symbolTable e
        if !(isCompatibleType dt actualType) then
          some { tc with errors := tc.errors ++
            [⟨1, getPositionFromIndex doc (exprStart e), getPositionFromIndex doc (exprEnd e),
              "Type mismatch: expected " ++ dt ++ " but got " ++ actualType
                ++ " for variable \x27" ++ name ++ "\x27"⟩] }
        else
          some { tc with symbolTable := tableSet tc.symbolTable name dt,
                         assignedVariables := setAdd tc.assignedVariables name }
      | none => some { tc with symbolTable := tableSet tc.symbolTable name dt }

/-- `TypeChecker.checkAssignmentExpression`: the body runs only when the
left side is an `Identifier` (and `node.right` exists, which is always
the case for parser output). -/
def checkAssignmentExpressionC (doc : String) (c : Checkers)
    (left right : Expr) (tc : TCState) : Option TCState :=
  match left with
  | .identifier varName lStart _ =>
    if tc.staticVariables.contains varName then
      if tc.assignedVariables.contains varName then
        some { tc with errors := tc.errors ++
          [⟨1, getPositionFromIndex doc lStart, getPositionFromIndex doc (exprEnd right),
            "Cannot reassign static variable \x27" ++ varName
              ++ "\x27 - it has already been assigned"⟩] }
      else
        -- first assignment to a static variable: mark assigned, continue
        checkAssignTypes doc c varName right
          { tc with assignedVariables := setAdd tc.assignedVariables varName }
    else
      checkAssignTypes doc c varName right tc
  | _ => some tc
where
  /-- The declared-type compatibility check and the final
  `checkNode(node.right)` of `checkAssignmentExpression`. -/
  checkAssignTypes (doc : String) (c : Checkers) (varName : String)
      (right : Expr) (tc : TCState) : Option TCState :=
    let tc :=
      match tableGet tc.symbolTable varName with
      | some dt =>
        if dt ≠ "any" then
          let actualType := inferType tc.symbolTable right
          if !(isCompatibleType dt actualType) then
            { tc with errors := tc.errors ++
              [⟨1, getPositionFromIndex doc (exprStart right),
                getPositionFromIndex doc (exprEnd right),
                "Type mismatch: expected " ++ dt ++ " but got " ++ actualType
                  ++ " when assigning to \x27" ++ varName ++ "\x27"⟩] }
          else tc
        else tc
      | none => tc
    c.cExpr right tc

/-- `TypeChecker.checkCatchClause`: the body is walked once
unconditionally, and once more after the parameter is registered. -/
def checkCatchClauseC (c : Checkers) (param : Option Expr) (body : Stmt)
    (tc : TCState) : Option TCState := do
  let tc ← c.cStmt body tc
  match param with
  | some (.identifier name _ _) =>
    -- `if (node.param && node.param.name)`
    if name ≠ "" then
      c.cStmt body { tc with symbolTable := tableSet tc.symbolTable name "any" }
    else some tc
  | some _ => some tc
  | none => some tc

/-- One fuel layer of the checker walk. -/
def stepCheckers (doc : String) (c : Checkers) : Checkers where
  cStmt := fun s =>
    match s with
    | .varDecl dt name init isStatic start stop =>
      checkVariableDeclarationC doc c dt name init isStatic start stop
    | .assignExpr left right _ _ => checkAssignmentExpressionC doc c left right
    | .ifStmt test consequent alternate _ _ => fun tc => do
        let tc ← c.cOptExpr test tc
        let tc ← c.cOptStmt consequent tc
        c.cOptStmt alternate tc
    | .whileStmt test body _ _ => fun tc => do
        let tc ← c.cOptExpr test tc
        c.cOptStmt body tc
    | .doWhileStmt test body _ _ => fun tc => do
        let tc ← c.cExpr test tc
        c.cStmt body tc
    | .forStmt init test update body _ _ => fun tc => do
        let tc ← (match init with
          | some (Sum.inl st) => c.cStmt st tc
          | some (Sum.inr e) => c.cExpr e tc
          | none => some tc)
        let tc ← c.cOptExpr test tc
        let tc ← c.cOptExpr update tc
        c.cStmt body tc
    | .exprStmt e _ _ => c.cExpr e
    | .returnStmt argument _ _ => c.cOptExpr argument
    | .matchStmt discriminant cases _ _ => fun tc => do
        let tc ← c.cOptExpr discriminant tc
        c.cStmtList cases tc
    | .matchCase test consequent _ _ => fun tc => do
        let tc ← c.cExpr test tc
        c.cOptStmt consequent tc
    | .matchDefault consequent _ _ => c.cOptStmt consequent
    | .tryStmt block handlers finalizer _ _ => fun tc => do
        let tc ← c.cStmt block tc
        let tc ← c.cStmtList handlers tc
        c.cOptStmt finalizer tc
    | .catchClause param body _ _ => checkCatchClauseC c param body
    | .finallyClause body _ _ => c.cStmt body
    | .retryStmt count body handler _ _ => fun tc => do
        let tc ← c.cExpr count tc
        let tc ← c.cStmt body tc
        c.cOptStmt handler tc
    -- the remaining statement kinds have no handler and fall through to
    -- checkChildren: object-valued fields are walked, arrays element-wise,
    -- strings/numbers skipped
    | .blockStmt body => c.cOptStmtList body
    | .funDecl id _ body _ _ => fun tc => do
        let tc ← c.cExpr id tc
        c.cStmt body tc
    | .classDecl id body _ _ => fun tc => do
        let tc ← c.cExpr id tc
        c.cStmt body tc
  cExpr := fun e =>
    match e with
    | .binary _ left right _ _ => fun tc => do
        let tc ← c.cExpr left tc
        c.cExpr right tc
    | .call callee args _ _ => fun tc => do
        let tc ← c.cExpr callee tc
        c.cExprList args tc
    | .throwStmt argument _ _ => c.cOptExpr argument
    -- the remaining expression kinds fall through to checkChildren
    | .logical _ left right _ _ => fun tc => do
        let tc ← c.cExpr left tc
        c.cExpr right tc
    | .unary _ argument _ _ => c.cExpr argument
    | .member object property _ _ => fun tc => do
        let tc ← c.cExpr object tc
        c.cExpr property tc
    | .arrayExpr elements _ _ => c.cExprList elements
    | .objectExpr properties _ _ => c.cExprList properties
    | .property _ value _ _ => c.cExpr value
      -- the key is a raw token; its generic walk touches nothing
    | .literal _ _ _ _ => fun tc => some tc
    | .identifier _ _ _ => fun tc => some tc
  cOptStmt := fun s? =>
    match s? with
    | some s => c.cStmt s
    | none => fun tc => some tc
  cOptExpr := fun e? =>
    match e? with
    | some e => c.cExpr e
    | none => fun tc => some tc
  cStmtList := fun l =>
    match l with
    | [] => fun tc => some tc
    | s :: rest => fun tc => do
        let tc ← c.cStmt s tc
        c.cStmtList rest tc
  cOptStmtList := fun l =>
    match l with
    | [] => fun tc => some tc
    | s :: rest => fun tc => do
        let tc ← c.cOptStmt s tc
        c.cOptStmtList rest tc
  cExprList := fun l =>
    match l with
    | [] => fun tc => some tc
    | e :: rest => fun tc => do
        let tc ← c.cExpr e tc
        c.cExprList rest tc

/-- The fuel-indexed checker walk. -/
def mkCheckers (doc : String) : Nat → Checkers
  | 0 => failCheckers
  | f + 1 => stepCheckers doc (mkCheckers doc f)

/-- `TypeChecker.check(ast, document, errors)`: reset the three tracking
structures, walk every top-level statement, return the final `errors`
sink. -/
def checkRun (fuel : Nat) (prog : Program) (doc : String) (errs0 : List Diag) :
    Option (List Diag) :=
  ((mkCheckers doc fuel).cStmtList prog.body ⟨[], [], [], errs0⟩).map (·.errors)

/-- Parse then check with an empty sink: the checker-only diagnostics for
a source text (the server pushes parse errors into the sink first; using
an empty sink isolates the checker's output). -/
def parseAndCheck (fuel : Nat) (input : String) : Option (List Diag) :=
  match parseCall fuel input [] with
  | some (.ok prog) => checkRun fuel prog input []
  | _ => none

/-! ## Unfolding lemmas for the parser monads -/

@[simp] theorem em_pure_apply {α : Type} (a : α) (pos : Nat) :
    (pure a : EM α) pos = some (.ok a, pos) := rfl

@[simp] theorem em_bind_apply {α β : Type} (m : EM α) (k : α → EM β) (pos : Nat) :
    (m >>= k) pos =
      match m pos with
      | none => none
      | some (.error e, q) => some (.error e, q)
      | some (.ok a, q) => k a q := rfl

@[simp] theorem emFail_apply {α : Type} (pos : Nat) : (emFail : EM α) pos = none := rfl

@[simp] theorem emThrow_apply {α : Type} (msg : String) (pos : Nat) :
    (emThrow msg : EM α) pos = some (.error msg, pos) := rfl

@[simp] theorem emCur_apply (ctx : Ctx) (pos : Nat) :
    emCur ctx pos = some (.ok (curTokAt ctx pos), pos) := rfl

@[simp] theorem emNext_apply (ctx : Ctx) (pos : Nat) :
    emNext ctx pos = some (.ok (), advanceTok ctx pos) := rfl

@[simp] theorem sm_pure_apply {α : Type} (a : α) (st : PState) :
    (pure a : SM α) st = some (.ok a, st) := rfl

@[simp] theorem sm_bind_apply {α β : Type} (m : SM α) (k : α → SM β) (st : PState) :
    (m >>= k) st =
      match m st with
      | none => none
      | some (.error e, s) => some (.error e, s)
      | some (.ok a, s) => k a s := rfl

@[simp] theorem smFail_apply {α : Type} (st : PState) : (smFail : SM α) st = none := rfl

@[simp] theorem smThrow_apply {α : Type} (msg : String) (st : PState) :
    (smThrow msg : SM α) st = some (.error msg, st) := rfl

@[simp] theorem smCur_apply (ctx : Ctx) (st : PState) :
    smCur ctx st = some (.ok (curTokAt ctx st.position), st) := rfl

@[simp] theorem smNext_apply (ctx : Ctx) (st : PState) :
    smNext ctx st = some (.ok (), { st with position := advanceTok ctx st.position }) := rfl

@[simp] theorem smGetPos_apply (st : PState) :
    smGetPos st = some (.ok st.position, st) := rfl

@[simp] theorem smSetPos_apply (pos : Nat) (st : PState) :
    smSetPos pos st = some (.ok (), { st with position := pos }) := rfl

@[simp] theorem smAddError_apply (msg : String) (a b : Nat) (st : PState) :
    smAddError msg a b st =
      some (.ok (), { st with errors := st.errors ++ [⟨msg, a, b⟩] }) := rfl

@[simp] theorem smSkipToNext_apply (ctx : Ctx) (st : PState) :
    smSkipToNext ctx st =
      some (.ok (), { st with position := skipToNextStatementPos ctx st.position }) := rfl

@[simp] theorem smLift_apply {α : Type} (m : EM α) (st : PState) :
    smLift m st =
      match m st.position with
      | none => none
      | some (r, pos) => some (r, { st with position := pos }) := rfl

@[simp] theorem smTry_apply {α : Type} (m : SM α) (handler : String → SM α) (st : PState) :
    smTry m handler st =
      match m st with
      | none => none
      | some (.ok a, s) => some (.ok a, s)
      | some (.error e, s) => handler e s := rfl

/-- `smLift` never touches `this.errors`. -/
theorem smLift_errors {α : Type} (m : EM α) (st : PState) (r : Except String α)
    (st' : PState) (h : smLift m st = some (r, st')) : st'.errors = st.errors := by
  simp only [smLift_apply] at h
  cases hm : m st.position with
  | none => rw [hm] at h; exact absurd h (by simp)
  | some v =>
    rw [hm] at h
    cases h' : v with
    | mk a b => rw [h'] at h; injection h with h1; injection h1 with _ h2; rw [← h2]

/-! ## Helper lemmas -/

/-- The context obtained by tokenizing the one-character input consisting
of a stray closing brace. -/
def strayCtx : Ctx := ⟨"\x7d".toList, [⟨"SYMBOL", "\x7d", 0, 1⟩]⟩

/-- On a stray `\x7d`, `parseStatement` consumes nothing: the panic-mode
skip stops at the block delimiter without advancing, and `null` is
returned with the state unchanged. -/
theorem strayStmt (f : Nat) (errs : List PError) :
    (mkParsers strayCtx (f + 1)).sStatement ⟨0, errs⟩ =
      some (.ok none, ⟨0, errs⟩) := rfl

/-- Hence the top-level statement loop of `parse` never terminates on the
input consisting of a stray closing brace, whatever the fuel. -/
theorem strayLoop (f : Nat) : ∀ (acc : List Stmt) (errs : List PError),
    (mkParsers strayCtx f).sProgram acc ⟨0, errs⟩ = none := by
  induction f with
  | zero => intro acc errs; rfl
  | succ f ih =>
    intro acc errs
    cases f with
    | zero => rfl
    | succ f' =>
      rw [show mkParsers strayCtx (f' + 1 + 1) =
        stepParsers strayCtx (mkParsers strayCtx (f' + 1)) from rfl]
      simp only [stepParsers, sm_bind_apply, smGetPos_apply, sm_pure_apply]
      rw [if_pos (by norm_num [strayCtx] : (0:Nat) < strayCtx.tokens.length)]
      simp only [sm_bind_apply]
      rw [strayStmt f' errs]
      exact ih acc errs

/-- `tokenize` cannot raise its unterminated-string error on whitespace-only
input: every loop iteration takes the whitespace-skip branch. -/
theorem ws_no_lex_error (l : List Char) (hws : ∀ c ∈ l, jsIsSpace c = true) :
    ∀ (f cur : Nat) (acc : List Token) (s : Nat),
      tokenizeF l f cur acc ≠ some (.error s) := by
  intro f
  induction f with
  | zero => intro cur acc s h; simp [tokenizeF] at h
  | succ f ih =>
    intro cur acc s h
    rw [tokenizeF] at h
    cases hg : l.get? cur with
    | none => rw [hg] at h; simp at h
    | some c =>
      rw [hg] at h
      have hc : jsIsSpace c = true := hws c (List.get?_mem hg)
      simp only [hc, if_true] at h
      exact ih _ _ _ h

/-- The initializer/semicolon stage of `parseVariableDeclaration` either
leaves `this.errors` unchanged (a `;` was consumed) or appends exactly the
soft missing-semicolon ParseError, whose span runs from the end of the
name token — which is also the returned node's `end` — to the end of the
physical line. -/
theorem parseVarDeclAfterName_errors (ctx : Ctx) (p : Parsers) (startToken : Token)
    (isStatic : Bool) (declaredType : Option String) (nameToken : Token)
    (st : PState) (node : Stmt) (st' : PState)
    (h : parseVarDeclAfterName ctx p startToken isStatic declaredType nameToken st =
      some (.ok node, st')) :
    st'.errors = st.errors ∨
      ((∃ init, node = Stmt.varDecl declaredType nameToken.value init isStatic
          startToken.start nameToken.stop) ∧
        st'.errors = st.errors ++
          [⟨"Missing semicolon at end of variable declaration", nameToken.stop,
            findEndOfLine ctx.input nameToken.stop⟩]) := by
  unfold parseVarDeclAfterName at h
  simp only [sm_bind_apply, sm_pure_apply, smCur_apply, smNext_apply, smThrow_apply,
    smAddError_apply, smLift_apply] at h
  rcases hF : curTokAt ctx st.position with _ | t
  · -- no current token: init = none, then the missing-semicolon branch
    simp only [hF, sm_bind_apply, sm_pure_apply, smCur_apply, smNext_apply,
      smAddError_apply, Option.some.injEq, Prod.mk.injEq, Except.ok.injEq] at h
    obtain ⟨h1, h2⟩ := h
    subst h2
    exact Or.inr ⟨⟨none, h1.symm⟩, rfl⟩
  · simp only [hF, sm_bind_apply, sm_pure_apply, smCur_apply, smNext_apply,
      smAddError_apply, smLift_apply] at h
    by_cases hFt : t.value = "="
    · -- initializer: parse it, then the semicolon check
      simp only [hFt, if_true, sm_bind_apply, sm_pure_apply, smCur_apply, smNext_apply,
        smAddError_apply, smLift_apply] at h
      rcases hE : p.pExpression (advanceTok ctx st.position) with _ | ⟨r, q2⟩
      · rw [hE] at h; exact absurd h (by simp)
      · cases r with
        | error m => rw [hE] at h; exact absurd h (by simp)
        | ok e =>
          simp only [hE, sm_bind_apply, sm_pure_apply, smCur_apply, smNext_apply,
            smAddError_apply] at h
          rcases hG : curTokAt ctx q2 with _ | u
          · simp only [hG, sm_bind_apply, sm_pure_apply, smAddError_apply,
              Option.some.injEq, Prod.mk.injEq, Except.ok.injEq] at h
            obtain ⟨h1, h2⟩ := h
            subst h2
            exact Or.inr ⟨⟨some e, h1.symm⟩, rfl⟩
          · simp only [hG] at h
            by_cases hGu : u.value = ";"
            · simp only [hGu, if_true, sm_bind_apply, sm_pure_apply, smCur_apply,
                smNext_apply, Option.some.injEq, Prod.mk.injEq, Except.ok.injEq] at h
              obtain ⟨h1, h2⟩ := h
              subst h2
              exact Or.inl rfl
            · simp only [hGu, if_false, sm_bind_apply, sm_pure_apply, smAddError_apply,
                Option.some.injEq, Prod.mk.injEq, Except.ok.injEq] at h
              obtain ⟨h1, h2⟩ := h
              subst h2
              exact Or.inr ⟨⟨some e, h1.symm⟩, rfl⟩
    · -- no initializer: the current token t is re-examined by the semicolon check
      simp only [hFt, if_false, sm_bind_apply, sm_pure_apply, smCur_apply, smNext_apply,
        smAddError_apply] at h
      simp only [hF] at h
      by_cases hGt : t.value = ";"
      · simp only [hGt, if_true, sm_bind_apply, sm_pure_apply, smCur_apply,
          smNext_apply, Option.some.injEq, Prod.mk.injEq, Except.ok.injEq] at h
        obtain ⟨h1, h2⟩ := h
        subst h2
        exact Or.inl rfl
      · simp only [hGt, if_false, sm_bind_apply, sm_pure_apply, smAddError_apply,
          Option.some.injEq, Prod.mk.injEq, Except.ok.injEq] at h
        obtain ⟨h1, h2⟩ := h
        subst h2
        exact Or.inr ⟨⟨none, h1.symm⟩, rfl⟩

/-- As `parseVarDeclAfterName_errors`, lifted over the type-annotation and
identifier stages (which touch only the position or throw). -/
theorem parseVarDeclAfterStatic_errors (ctx : Ctx) (p : Parsers) (startToken : Token)
    (isStatic : Bool) (st : PState) (node : Stmt) (st' : PState)
    (h : parseVarDeclAfterStatic ctx p startToken isStatic st = some (.ok node, st')) :
    st'.errors = st.errors ∨
      ∃ dt nm init isSt s e, node = Stmt.varDecl dt nm init isSt s e ∧
        st'.errors = st.errors ++
          [⟨"Missing semicolon at end of variable declaration", e,
            findEndOfLine ctx.input e⟩] := by
  unfold parseVarDeclAfterStatic at h
  simp only [sm_bind_apply, sm_pure_apply, smCur_apply, smNext_apply, smThrow_apply,
    smLift_apply] at h
  rcases hD : curTokAt ctx st.position with _ | t
  · simp only [hD] at h
    exact absurd h (by simp)
  · simp only [hD] at h
    by_cases hDt : isTypeKeyword t.value = true
    · simp only [hDt, if_true, sm_bind_apply, sm_pure_apply, smCur_apply, smNext_apply,
        smThrow_apply] at h
      rcases hN : curTokAt ctx (advanceTok ctx st.position) with _ | nameToken
      · simp only [hN] at h
        exact absurd h (by simp)
      · simp only [hN] at h
        by_cases hNi : nameToken.tokType = "IDENTIFIER"
        · simp only [hNi, ne_eq, not_true_eq_false, if_false, sm_bind_apply,
            smNext_apply] at h
          rcases parseVarDeclAfterName_errors _ _ _ _ _ _ _ _ _ h with he | ⟨⟨init, hn⟩, he⟩
          · exact Or.inl he
          · exact Or.inr ⟨_, _, init, _, _, _, hn, he⟩
        · simp only [hNi, ne_eq, not_false_eq_true, if_true, smThrow_apply] at h
          exact absurd h (by simp)
    · simp only [hDt, Bool.false_eq_true, if_false, sm_bind_apply, sm_pure_apply,
        smCur_apply, smNext_apply, smThrow_apply] at h
      simp only [hD] at h
      by_cases hNi : t.tokType = "IDENTIFIER"
      · simp only [hNi, ne_eq, not_true_eq_false, if_false, sm_bind_apply,
          smNext_apply] at h
        rcases parseVarDeclAfterName_errors _ _ _ _ _ _ _ _ _ h with he | ⟨⟨init, hn⟩, he⟩
        · exact Or.inl he
        · exact Or.inr ⟨_, _, init, _, _, _, hn, he⟩
      · simp only [hNi, ne_eq, not_false_eq_true, if_true, smThrow_apply] at h
        exact absurd h (by simp)

/-- A `smTry` run yields either the protected computation's `ok` value or
the handler's result. -/
theorem smTry_cases {α : Type} (m : SM α) (hand : String → SM α) (st : PState)
    (r : Except String α) (st' : PState)
    (h : smTry m hand st = some (r, st')) :
    (∃ v, r = Except.ok v) ∨ ∃ e s, hand e s = some (r, st') := by
  simp only [smTry_apply] at h
  cases hm : m st with
  | none => rw [hm] at h; exact absurd h (by simp)
  | some v =>
    rw [hm] at h
    rcases v with ⟨rv, sv⟩
    cases rv with
    | ok a =>
      simp only [Option.some.injEq, Prod.mk.injEq] at h
      exact Or.inl ⟨a, h.1.symm⟩
    | error e => exact Or.inr ⟨e, sv, h⟩

/-! ## The nil-freedom invariant of the symbol table

`inferType` can only return `"nil"` by reading it out of the symbol
table (the `Identifier` case).  The checker, however, never stores
`"nil"`: declarations register either `"any"` or a declared type, and
declared types come from `isTypeKeyword`, which does not accept `nil`.
The lemmas below establish the invariant and that the checker's
expression walk leaves the state untouched. -/

/-- No entry of the symbol table maps a name to the string `"nil"`. -/
def symbolTableNilFree (t : List (String × String)) : Prop :=
  ∀ pr ∈ t, pr.2 ≠ "nil"

theorem tableSet_nilFree (t : List (String × String)) (k v : String)
    (ht : symbolTableNilFree t) (hv : v ≠ "nil") :
    symbolTableNilFree (tableSet t k v) := by
  intro pr hpr
  unfold tableSet at hpr
  split at hpr
  · rcases List.mem_map.mp hpr with ⟨q, hq, hqe⟩
    by_cases hk : q.1 = k
    · simp [hk] at hqe
      rw [← hqe]
      exact hv
    · simp [hk] at hqe
      rw [← hqe]
      exact ht q hq
  · rcases List.mem_append.mp hpr with hmem | hmem
    · exact ht pr hmem
    · simp at hmem
      rw [hmem]
      exact hv

theorem inferType_ne_nil (table : List (String × String))
    (ht : symbolTableNilFree table) : (e : Expr) → inferType table e ≠ "nil"
  | .literal v raw s t => by
    unfold inferType
    cases v <;> dsimp <;> first | decide | (split_ifs <;> decide)
  | .identifier name s t => by
    unfold inferType
    cases hg : tableGet table name with
    | none => simp [Option.getD]
    | some v =>
      simp only [Option.getD_some]
      unfold tableGet at hg
      rcases Option.map_eq_some'.mp hg with ⟨pr, hfind, hpr⟩
      rw [← hpr]
      exact ht pr (List.mem_of_find?_eq_some hfind)
  | .logical op l r s t => by
    unfold inferType
    dsimp only
    split_ifs <;> decide
  | .binary op l r s t => by
    unfold inferType
    dsimp only
    split_ifs <;> decide
  | .unary op a s t => by
    unfold inferType
    split_ifs with h
    · decide
    · exact inferType_ne_nil table ht a
  | .call _ _ _ _ => by unfold inferType; decide
  | .member _ _ _ _ => by unfold inferType; decide
  | .property _ _ _ _ => by unfold inferType; decide
  | .throwStmt _ _ _ => by unfold inferType; decide
  | .arrayExpr _ _ _ => by unfold inferType; decide
  | .objectExpr _ _ _ => by unfold inferType; decide

theorem checkExpr_identity (doc : String) : ∀ f : Nat,
    (∀ (e : Expr) (tc tc' : TCState),
      (mkCheckers doc f).cExpr e tc = some tc' → tc' = tc) ∧
    (∀ (e? : Option Expr) (tc tc' : TCState),
      (mkCheckers doc f).cOptExpr e? tc = some tc' → tc' = tc) ∧
    (∀ (l : List Expr) (tc tc' : TCState),
      (mkCheckers doc f).cExprList l tc = some tc' → tc' = tc) := by
  intro f
  induction f with
  | zero =>
    refine ⟨?_, ?_, ?_⟩ <;> intro a tc tc' h <;>
      exact absurd h (by simp [mkCheckers, failCheckers])
  | succ f ih =>
    obtain ⟨ihE, ihO, ihL⟩ := ih
    rw [show mkCheckers doc (f + 1) = stepCheckers doc (mkCheckers doc f) from rfl]
    refine ⟨?_, ?_, ?_⟩
    · intro e tc tc' h
      cases e with
      | literal v raw s t =>
        simp only [stepCheckers, Option.some.injEq] at h
        exact h.symm
      | identifier name s t =>
        simp only [stepCheckers, Option.some.injEq] at h
        exact h.symm
      | logical op l r s t =>
        simp only [stepCheckers] at h
        cases hx : (mkCheckers doc f).cExpr l tc with
        | none => rw [hx] at h; exact absurd h (by simp)
        | some mid =>
          rw [hx] at h
          rw [ihE r mid tc' h, ihE l tc mid hx]
      | binary op l r s t =>
        simp only [stepCheckers] at h
        cases hx : (mkCheckers doc f).cExpr l tc with
        | none => rw [hx] at h; exact absurd h (by simp)
        | some mid =>
          rw [hx] at h
          rw [ihE r mid tc' h, ihE l tc mid hx]
      | unary op a s t =>
        simp only [stepCheckers] at h
        exact ihE a tc tc' h
      | call callee args s t =>
        simp only [stepCheckers] at h
        cases hx : (mkCheckers doc f).cExpr callee tc with
        | none => rw [hx] at h; exact absurd h (by simp)
        | some mid =>
          rw [hx] at h
          rw [ihL args mid tc' h, ihE callee tc mid hx]
      | member object property s t =>
        simp only [stepCheckers] at h
        cases hx : (mkCheckers doc f).cExpr object tc with
        | none => rw [hx] at h; exact absurd h (by simp)
        | some mid =>
          rw [hx] at h
          rw [ihE property mid tc' h, ihE object tc mid hx]
      | arrayExpr elements s t =>
        simp only [stepCheckers] at h
        exact ihL elements tc tc' h
      | objectExpr properties s t =>
        simp only [stepCheckers] at h
        exact ihL properties tc tc' h
      | property key value s t =>
        simp only [stepCheckers] at h
        exact ihE value tc tc' h
      | throwStmt argument s t =>
        simp only [stepCheckers] at h
        exact ihO argument tc tc' h
    · intro e? tc tc' h
      cases e? with
      | none =>
        simp only [stepCheckers, Option.some.injEq] at h
        exact h.symm
      | some e =>
        simp only [stepCheckers] at h
        exact ihE e tc tc' h
    · intro l tc tc' h
      cases l with
      | nil =>
        simp only [stepCheckers, Option.some.injEq] at h
        exact h.symm
      | cons e rest =>
        simp only [stepCheckers] at h
        cases hx : (mkCheckers doc f).cExpr e tc with
        | none => rw [hx] at h; exact absurd h (by simp)
        | some mid =>
          rw [hx] at h
          rw [ihL rest mid tc' h, ihE e tc mid hx]

inductive DeclTypesOk : Stmt → Prop where
  | varDecl (dt : Option String) (nm : String) (init : Option Expr) (isSt : Bool)
      (s e : Nat) (hdt : ∀ t, dt = some t → t ≠ "nil") :
      DeclTypesOk (.varDecl dt nm init isSt s e)
  | ifStmt (test : Option Expr) (c a : Option Stmt) (s : Nat) (e : Option Nat)
      (hc : ∀ x, c = some x → DeclTypesOk x) (ha : ∀ x, a = some x → DeclTypesOk x) :
      DeclTypesOk (.ifStmt test c a s e)
  | blockStmt (body : List (Option Stmt))
      (hb : ∀ x ∈ body, ∀ y, x = some y → DeclTypesOk y) :
      DeclTypesOk (.blockStmt body)
  | whileStmt (test : Option Expr) (b : Option Stmt) (s : Nat) (e : Option Nat)
      (hb : ∀ x, b = some x → DeclTypesOk x) : DeclTypesOk (.whileStmt test b s e)
  | doWhileStmt (test : Expr) (b : Stmt) (s e : Nat) (hb : DeclTypesOk b) :
      DeclTypesOk (.doWhileStmt test b s e)
  | forStmt (init : Option (Sum Stmt Expr)) (test upd : Option Expr) (b : Stmt)
      (s e : Nat) (hi : ∀ x, init = some (Sum.inl x) → DeclTypesOk x)
      (hb : DeclTypesOk b) : DeclTypesOk (.forStmt init test upd b s e)
  | funDecl (id : Expr) (params : List String) (b : Stmt) (s e : Nat)
      (hb : DeclTypesOk b) : DeclTypesOk (.funDecl id params b s e)
  | classDecl (id : Expr) (b : Stmt) (s e : Nat) (hb : DeclTypesOk b) :
      DeclTypesOk (.classDecl id b s e)
  | returnStmt (arg : Option Expr) (s e : Nat) : DeclTypesOk (.returnStmt arg s e)
  | exprStmt (ex : Expr) (s e : Nat) : DeclTypesOk (.exprStmt ex s e)
  | assignExpr (l r : Expr) (s e : Nat) : DeclTypesOk (.assignExpr l r s e)
  | matchStmt (d : Option Expr) (cases : List Stmt) (s e : Nat)
      (hc : ∀ x ∈ cases, DeclTypesOk x) : DeclTypesOk (.matchStmt d cases s e)
  | matchCase (t : Expr) (c : Option Stmt) (s : Nat) (e : Option Nat)
      (hc : ∀ x, c = some x → DeclTypesOk x) : DeclTypesOk (.matchCase t c s e)
  | matchDefault (c : Option Stmt) (s : Nat) (e : Option Nat)
      (hc : ∀ x, c = some x → DeclTypesOk x) : DeclTypesOk (.matchDefault c s e)
  | tryStmt (b : Stmt) (hs : List Stmt) (fz : Option Stmt) (s e : Nat)
      (hb : DeclTypesOk b) (hh : ∀ x ∈ hs, DeclTypesOk x)
      (hf : ∀ x, fz = some x → DeclTypesOk x) : DeclTypesOk (.tryStmt b hs fz s e)
  | catchClause (p : Option Expr) (b : Stmt) (s : Nat) (e : Option Nat)
      (hb : DeclTypesOk b) : DeclTypesOk (.catchClause p b s e)
  | finallyClause (b : Stmt) (s : Nat) (e : Option Nat) (hb : DeclTypesOk b) :
      DeclTypesOk (.finallyClause b s e)
  | retryStmt (cnt : Expr) (b : Stmt) (hd : Option Stmt) (s e : Nat)
      (hb : DeclTypesOk b) (hh : ∀ x, hd = some x → DeclTypesOk x) :
      DeclTypesOk (.retryStmt cnt b hd s e)

theorem checkVarDeclC_nilFree (doc : String) (c : Checkers)
    (hc : ∀ (e : Expr) (tc tc' : TCState), c.cExpr e tc = some tc' → tc' = tc)
    (dt : Option String) (name : String) (init : Option Expr) (isSt : Bool)
    (s e : Nat) (tc tc' : TCState)
    (hdt : ∀ t, dt = some t → t ≠ "nil")
    (hnf : symbolTableNilFree tc.symbolTable)
    (h : checkVariableDeclarationC doc c dt name init isSt s e tc = some tc') :
    symbolTableNilFree tc'.symbolTable := by
  cases dt <;> cases init <;>
    (unfold checkVariableDeclarationC at h
     simp only [Option.isSome_some, Option.isSome_none, Bool.false_eq_true,
       if_true, if_false] at h
     repeat' split at h) <;>
  first
    | (simp only [Option.some.injEq] at h
       rw [← h]
       first
         | exact hnf
         | exact tableSet_nilFree _ _ _ hnf (by decide)
         | exact tableSet_nilFree _ _ _ hnf (hdt _ rfl))
    | (rw [hc _ _ _ h]
       first
         | exact hnf
         | exact tableSet_nilFree _ _ _ hnf (by decide))

theorem checkAssignC_table (doc : String) (c : Checkers)
    (hc : ∀ (e : Expr) (tc tc' : TCState), c.cExpr e tc = some tc' → tc' = tc)
    (left right : Expr) (tc tc' : TCState)
    (h : checkAssignmentExpressionC doc c left right tc = some tc') :
    tc'.symbolTable = tc.symbolTable := by
  have hTypes : ∀ (vn : String) (tc0 tc0' : TCState),
      checkAssignmentExpressionC.checkAssignTypes doc c vn right tc0 = some tc0' →
      tc0'.symbolTable = tc0.symbolTable := by
    intro vn tc0 tc0' h0
    unfold checkAssignmentExpressionC.checkAssignTypes at h0
    rw [hc right _ _ h0]
    split
    · split
      · dsimp only
        split <;> rfl
      · rfl
    · rfl
  unfold checkAssignmentExpressionC at h
  split at h
  · split at h
    · split at h
      · simp only [Option.some.injEq] at h
        rw [← h]
      · exact (hTypes _ _ _ h).trans rfl
    · exact hTypes _ _ _ h
  · simp only [Option.some.injEq] at h
    rw [← h]

theorem optBind_eq_some {α β : Type} {x : Option α} {k : α → Option β} {b : β}
    (h : x >>= k = some b) : ∃ a, x = some a ∧ k a = some b := by
  cases x with
  | none => simp at h
  | some a => exact ⟨a, rfl, h⟩

theorem check_nilFree (doc : String) : ∀ f : Nat,
    (∀ (s : Stmt) (tc tc' : TCState), DeclTypesOk s →
      symbolTableNilFree tc.symbolTable →
      (mkCheckers doc f).cStmt s tc = some tc' →
      symbolTableNilFree tc'.symbolTable) ∧
    (∀ (s? : Option Stmt) (tc tc' : TCState),
      (∀ x, s? = some x → DeclTypesOk x) →
      symbolTableNilFree tc.symbolTable →
      (mkCheckers doc f).cOptStmt s? tc = some tc' →
      symbolTableNilFree tc'.symbolTable) ∧
    (∀ (l : List Stmt) (tc tc' : TCState),
      (∀ x ∈ l, DeclTypesOk x) →
      symbolTableNilFree tc.symbolTable →
      (mkCheckers doc f).cStmtList l tc = some tc' →
      symbolTableNilFree tc'.symbolTable) ∧
    (∀ (l : List (Option Stmt)) (tc tc' : TCState),
      (∀ x ∈ l, ∀ y, x = some y → DeclTypesOk y) →
      symbolTableNilFree tc.symbolTable →
      (mkCheckers doc f).cOptStmtList l tc = some tc' →
      symbolTableNilFree tc'.symbolTable) := by
  intro f
  induction f with
  | zero =>
    refine ⟨?_, ?_, ?_, ?_⟩ <;> intro a tc tc' _ _ h <;>
      exact absurd h (by simp [mkCheckers, failCheckers])
  | succ f ih =>
    obtain ⟨ihS, ihO, ihL, ihOL⟩ := ih
    obtain ⟨hcE, hcOE, hcEL⟩ := checkExpr_identity doc f
    rw [show mkCheckers doc (f + 1) = stepCheckers doc (mkCheckers doc f) from rfl]
    refine ⟨?_, ?_, ?_, ?_⟩
    · intro s tc tc' hD hnf h
      cases s with
      | varDecl dt name init isSt st en =>
        simp only [stepCheckers] at h
        cases hD with
        | varDecl _ _ _ _ _ _ hdt =>
          exact checkVarDeclC_nilFree doc _ hcE _ _ _ _ _ _ _ _ hdt hnf h
      | assignExpr l r st en =>
        simp only [stepCheckers] at h
        rw [checkAssignC_table doc _ hcE _ _ _ _ h]
        exact hnf
      | ifStmt test cons alt st en =>
        simp only [stepCheckers] at h
        cases hD with
        | ifStmt _ _ _ _ _ hc2 ha2 =>
          obtain ⟨m1, hx, h⟩ := optBind_eq_some h
          obtain rfl : tc = m1 := (hcOE test tc m1 hx).symm
          obtain ⟨m2, hy, h⟩ := optBind_eq_some h
          exact ihO alt m2 tc' ha2 (ihO cons tc m2 hc2 hnf hy) h
      | whileStmt test body st en =>
        simp only [stepCheckers] at h
        cases hD with
        | whileStmt _ _ _ _ hb =>
          obtain ⟨m1, hx, h⟩ := optBind_eq_some h
          obtain rfl : tc = m1 := (hcOE test tc m1 hx).symm
          exact ihO body tc tc' hb hnf h
      | doWhileStmt test body st en =>
        simp only [stepCheckers] at h
        cases hD with
        | doWhileStmt _ _ _ _ hb =>
          obtain ⟨m1, hx, h⟩ := optBind_eq_some h
          obtain rfl : tc = m1 := (hcE test tc m1 hx).symm
          exact ihS body tc tc' hb hnf h
      | forStmt init test upd body st en =>
        cases hD with
        | forStmt _ _ _ _ _ _ hi hb =>
          rcases init with _ | (st0 | e0)
          · simp only [stepCheckers] at h
            obtain ⟨m0, hx0, h⟩ := optBind_eq_some h
            obtain rfl : tc = m0 := Option.some.inj hx0
            obtain ⟨m1, hx, h⟩ := optBind_eq_some h
            obtain rfl : tc = m1 := (hcOE test tc m1 hx).symm
            obtain ⟨m2, hy, h⟩ := optBind_eq_some h
            obtain rfl : tc = m2 := (hcOE upd tc m2 hy).symm
            exact ihS body tc tc' hb hnf h
          · simp only [stepCheckers] at h
            obtain ⟨m0, hx0, h⟩ := optBind_eq_some h
            have hm0 : symbolTableNilFree m0.symbolTable :=
              ihS st0 tc m0 (hi st0 rfl) hnf hx0
            obtain ⟨m1, hx, h⟩ := optBind_eq_some h
            obtain rfl : m0 = m1 := (hcOE test m0 m1 hx).symm
            obtain ⟨m2, hy, h⟩ := optBind_eq_some h
            obtain rfl : m0 = m2 := (hcOE upd m0 m2 hy).symm
            exact ihS body m0 tc' hb hm0 h
          · simp only [stepCheckers] at h
            obtain ⟨m0, hx0, h⟩ := optBind_eq_some h
            obtain rfl : tc = m0 := (hcE e0 tc m0 hx0).symm
            obtain ⟨m1, hx, h⟩ := optBind_eq_some h
            obtain rfl : tc = m1 := (hcOE test tc m1 hx).symm
            obtain ⟨m2, hy, h⟩ := optBind_eq_some h
            obtain rfl : tc = m2 := (hcOE upd tc m2 hy).symm
            exact ihS body tc tc' hb hnf h
      | funDecl id params body st en =>
        simp only [stepCheckers] at h
        cases hD with
        | funDecl _ _ _ _ _ hb =>
          obtain ⟨m1, hx, h⟩ := optBind_eq_some h
          obtain rfl : tc = m1 := (hcE id tc m1 hx).symm
          exact ihS body tc tc' hb hnf h
      | classDecl id body st en =>
        simp only [stepCheckers] at h
        cases hD with
        | classDecl _ _ _ _ hb =>
          obtain ⟨m1, hx, h⟩ := optBind_eq_some h
          obtain rfl : tc = m1 := (hcE id tc m1 hx).symm
          exact ihS body tc tc' hb hnf h
      | returnStmt arg st en =>
        simp only [stepCheckers] at h
        rw [hcOE arg tc tc' h]
        exact hnf
      | exprStmt e st en =>
        simp only [stepCheckers] at h
        rw [hcE e tc tc' h]
        exact hnf
      | matchStmt disc cs st en =>
        simp only [stepCheckers] at h
        cases hD with
        | matchStmt _ _ _ _ hcs =>
          obtain ⟨m1, hx, h⟩ := optBind_eq_some h
          obtain rfl : tc = m1 := (hcOE disc tc m1 hx).symm
          exact ihL cs tc tc' hcs hnf h
      | matchCase test cons st en =>
        simp only [stepCheckers] at h
        cases hD with
        | matchCase _ _ _ _ hc2 =>
          obtain ⟨m1, hx, h⟩ := optBind_eq_some h
          obtain rfl : tc = m1 := (hcE test tc m1 hx).symm
          exact ihO cons tc tc' hc2 hnf h
      | matchDefault cons st en =>
        simp only [stepCheckers] at h
        cases hD with
        | matchDefault _ _ _ hc2 =>
          exact ihO cons tc tc' hc2 hnf h
      | tryStmt block handlers fin st en =>
        simp only [stepCheckers] at h
        cases hD with
        | tryStmt _ _ _ _ _ hb hh hf =>
          obtain ⟨m1, hx, h⟩ := optBind_eq_some h
          obtain ⟨m2, hy, h⟩ := optBind_eq_some h
          exact ihO fin m2 tc' hf
            (ihL handlers m1 m2 hh (ihS block tc m1 hb hnf hx) hy) h
      | catchClause param body st en =>
        simp only [stepCheckers] at h
        cases hD with
        | catchClause _ _ _ _ hb =>
          unfold checkCatchClauseC at h
          obtain ⟨m1, hx, h⟩ := optBind_eq_some h
          have hm1 : symbolTableNilFree m1.symbolTable := ihS body tc m1 hb hnf hx
          split at h
          · split at h
            · exact ihS body _ tc' hb
                (tableSet_nilFree _ _ _ hm1 (by decide)) h
            · exact (Option.some.inj h) ▸ hm1
          · exact (Option.some.inj h) ▸ hm1
          · exact (Option.some.inj h) ▸ hm1
      | finallyClause body st en =>
        simp only [stepCheckers] at h
        cases hD with
        | finallyClause _ _ _ hb =>
          exact ihS body tc tc' hb hnf h
      | retryStmt cnt body handler st en =>
        simp only [stepCheckers] at h
        cases hD with
        | retryStmt _ _ _ _ _ hb hh =>
          obtain ⟨m1, hx, h⟩ := optBind_eq_some h
          obtain rfl : tc = m1 := (hcE cnt tc m1 hx).symm
          obtain ⟨m2, hy, h⟩ := optBind_eq_some h
          exact ihO handler m2 tc' hh (ihS body tc m2 hb hnf hy) h
      | blockStmt body =>
        simp only [stepCheckers] at h
        cases hD with
        | blockStmt _ hb =>
          exact ihOL body tc tc' hb hnf h
    · intro s? tc tc' hDs hnf h
      cases s? with
      | none =>
        simp only [stepCheckers, Option.some.injEq] at h
        rw [← h]
        exact hnf
      | some s =>
        simp only [stepCheckers] at h
        exact ihS s tc tc' (hDs s rfl) hnf h
    · intro l tc tc' hDs hnf h
      cases l with
      | nil =>
        simp only [stepCheckers, Option.some.injEq] at h
        rw [← h]
        exact hnf
      | cons s rest =>
        simp only [stepCheckers] at h
        obtain ⟨m1, hx, h⟩ := optBind_eq_some h
        exact ihL rest m1 tc' (fun x hxm => hDs x (List.mem_cons_of_mem _ hxm))
          (ihS s tc m1 (hDs s (List.mem_cons_self _ _)) hnf hx) h
    · intro l tc tc' hDs hnf h
      cases l with
      | nil =>
        simp only [stepCheckers, Option.some.injEq] at h
        rw [← h]
        exact hnf
      | cons s rest =>
        simp only [stepCheckers] at h
        obtain ⟨m1, hx, h⟩ := optBind_eq_some h
        exact ihOL rest m1 tc' (fun x hxm => hDs x (List.mem_cons_of_mem _ hxm))
          (ihO s tc m1 (fun y hy => hDs s (List.mem_cons_self _ _) y hy) hnf hx) h

/-! ## The claims -/

/-- C1: the claim says that on any input for which `parse` records no
syntax errors, every node's span lies within `[0, text.length]`.  The
code violates this: `parseReturnStatement` computes an argumentless
return's `end` as `startToken.end + 6` (the token's `end` already lies
past the keyword, so the 6 is double-counted).  On the input `return`
(length 6) `parse` records no errors yet returns a `ReturnStatement`
whose `end` is 12. -/
theorem claim_C1_return_end_overflow :
    parseCall 100 "return" [] = some (.ok ⟨[Stmt.returnStmt none 0 12], []⟩) ∧
    "return".length = 6 ∧ 12 > 6 := ⟨rfl, rfl, by decide⟩

/-- C2 counterexample: the claim says a SyntaxError from a malformed
function declaration is not caught inside `parse` and aborts the whole
call.  In fact `parseStatement` wraps every statement parse — including
`parseFunctionDeclaration` — in its try/catch: on `fun 1` the thrown
error is recorded as a ParseError against the statement's first token and
`parse` returns normally. -/
theorem claim_C2_counterexample :
    parseCall 100 "fun 1" [] = some (.ok ⟨[],
      [⟨"Expected function name after \x27fun\x27 at position 4", 0, 3⟩]⟩) := rfl

/-- C2 (amended): every result `parseStatement` produces is an `ok` value
— the statement-boundary catch converts any exception (including those of
`parseFunctionDeclaration`/`parseClassDeclaration`) into a recorded
ParseError followed by `skipToNextStatement` — and on `class 1` the
malformed class declaration yields a normal `parse` return with exactly
one recorded ParseError. -/
theorem claim_C2_errors_caught_at_statement_boundary :
    (∀ (ctx : Ctx) (f : Nat) (st : PState) (r : Except String (Option Stmt)) (st' : PState),
      (mkParsers ctx f).sStatement st = some (r, st') → ∃ v, r = Except.ok v) ∧
    parseCall 100 "class 1" [] = some (.ok ⟨[],
      [⟨"Expected class name after \x27class\x27 at position 6", 0, 5⟩]⟩) := by
  refine ⟨?_, rfl⟩
  intro ctx f st r st' h
  cases f with
  | zero => exact absurd h (by simp [mkParsers, failParsers, smFail])
  | succ f =>
    rw [show mkParsers ctx (f + 1) = stepParsers ctx (mkParsers ctx f) from rfl] at h
    simp only [stepParsers, sm_bind_apply, sm_pure_apply, smCur_apply] at h
    rcases hA : curTokAt ctx st.position with _ | token
    · simp only [hA, sm_pure_apply, Option.some.injEq, Prod.mk.injEq] at h
      exact ⟨none, h.1.symm⟩
    · simp only [hA] at h
      rcases smTry_cases _ _ _ _ _ h with hok | ⟨e, s, hH⟩
      · exact hok
      · simp only [sm_bind_apply, sm_pure_apply, smAddError_apply, smSkipToNext_apply,
          Option.some.injEq, Prod.mk.injEq] at hH
        exact ⟨none, hH.1.symm⟩

/-- C2 witness: the general part applied at a concrete state (empty token
stream, so `parseStatement` returns `ok null`). -/
theorem claim_C2_witness :
    (mkParsers ⟨[], []⟩ 1).sStatement ⟨0, []⟩ = some (.ok none, ⟨0, []⟩) ∧
    ∃ v, (Except.ok (none : Option Stmt) : Except String (Option Stmt)) = Except.ok v :=
  ⟨rfl, claim_C2_errors_caught_at_statement_boundary.1 ⟨[], []⟩ 1 ⟨0, []⟩
    (.ok none) ⟨0, []⟩ rfl⟩

/-- C3: the claim says the top-level statement loop and block loop always
make progress, including on an input that begins with a stray `\x7d`.
The code violates this: on the input consisting of the single character
`\x7d`, `parseStatement` takes the fall-through branch, and
`skipToNextStatement` returns without consuming the block delimiter, so
the `while (this.position < this.tokens.length)` loop of `parse` spins
forever.  In the fuelled model: `parse` exhausts every fuel. -/
theorem claim_C3_parse_diverges_on_stray_brace (f : Nat) (errs0 : List PError) :
    parseCall f "\x7d" errs0 = none := by
  have hl' : (mkParsers ⟨['}'], [⟨"SYMBOL", "\x7d", 0, 1⟩]⟩ f).sProgram []
      ⟨0, errs0⟩ = none := strayLoop f [] errs0
  unfold parseCall
  rw [show jsTrimEmpty "\x7d" = false from rfl]
  simp only [Bool.false_eq_true, if_false]
  rw [show tokenizeRun "\x7d".toList = some (.ok [⟨"SYMBOL", "\x7d", 0, 1⟩]) from rfl]
  simp [hl']

/-- C4: a name in both `staticVariables` and `assignedVariables` never
receives a further assignment without a diagnostic: for any checker state
with `name` in both sets, `checkAssignmentExpression` on an assignment to
`name` appends exactly the static-reassignment diagnostic (and stops).
Concretely, checking `static var x = 10; x = 20;` produces exactly one
diagnostic, the static-reassignment one, whose range covers offsets 19-25
(`x = 20`) inside the second statement's span [19, 26). -/
theorem claim_C4_static_reassign_diagnosed (doc : String) (c : Checkers) (name : String)
    (ls le : Nat) (right : Expr) (tc : TCState)
    (h1 : tc.staticVariables.contains name = true)
    (h2 : tc.assignedVariables.contains name = true) :
    checkAssignmentExpressionC doc c (.identifier name ls le) right tc =
      some { tc with errors := tc.errors ++
        [⟨1, getPositionFromIndex doc ls, getPositionFromIndex doc (exprEnd right),
          "Cannot reassign static variable \x27" ++ name
            ++ "\x27 - it has already been assigned"⟩] } ∧
    parseAndCheck 100 "static var x = 10; x = 20;" =
      some [⟨1, ⟨0, 19⟩, ⟨0, 25⟩,
        "Cannot reassign static variable \x27x\x27 - it has already been assigned"⟩] := by
  refine ⟨?_, rfl⟩
  unfold checkAssignmentExpressionC
  simp_all

/-- C4 witness: the general part applied at the state reached after
checking `static var x = 10;`, with the assignment node of `x = 20;`. -/
theorem claim_C4_witness :
    (TCState.mk [("x", "any")] ["x"] ["x"] []).staticVariables.contains "x" = true ∧
    (TCState.mk [("x", "any")] ["x"] ["x"] []).assignedVariables.contains "x" = true ∧
    checkAssignmentExpressionC "static var x = 10; x = 20;" failCheckers
      (.identifier "x" 19 20) (.literal (.num "20") "20" 23 25)
      (TCState.mk [("x", "any")] ["x"] ["x"] []) =
      some (TCState.mk [("x", "any")] ["x"] ["x"]
        [⟨1, ⟨0, 19⟩, ⟨0, 25⟩,
          "Cannot reassign static variable \x27x\x27 - it has already been assigned"⟩]) :=
  ⟨rfl, rfl, (claim_C4_static_reassign_diagnosed "static var x = 10; x = 20;"
    failCheckers "x" 19 20 (.literal (.num "20") "20" 23 25)
    (TCState.mk [("x", "any")] ["x"] ["x"] []) rfl rfl).1⟩

/-- C5: a variable declaration with a missing trailing semicolon does not
throw: whenever `parseVariableDeclaration` returns normally, either a `;`
was consumed and `this.errors` is unchanged, or exactly one ParseError
was appended whose span runs from the declaration node's `end` to the end
of the current physical line (`findEndOfLine`).  Concretely,
`var x = 5\nvar y = 6;` parses to both declarations with exactly one
recorded error spanning [5, 9) — parsing resumed at the next statement. -/
theorem claim_C5_soft_missing_semicolon (ctx : Ctx) (f : Nat) (st : PState)
    (node : Stmt) (st' : PState)
    (h : (mkParsers ctx f).sVariableDeclaration st = some (.ok node, st')) :
    (st'.errors = st.errors ∨
      ∃ dt nm init isSt s e, node = Stmt.varDecl dt nm init isSt s e ∧
        st'.errors = st.errors ++
          [⟨"Missing semicolon at end of variable declaration", e,
            findEndOfLine ctx.input e⟩]) ∧
    parseCall 100 "var x = 5\nvar y = 6;" [] = some (.ok
      ⟨[Stmt.varDecl none "x" (some (.literal (.num "5") "5" 8 9)) false 0 5,
        Stmt.varDecl none "y" (some (.literal (.num "6") "6" 18 19)) false 10 16],
       [⟨"Missing semicolon at end of variable declaration", 5, 9⟩]⟩) := by
  refine ⟨?_, rfl⟩
  cases f with
  | zero => exact absurd h (by simp [mkParsers, failParsers, smFail])
  | succ f =>
    rw [show mkParsers ctx (f + 1) = stepParsers ctx (mkParsers ctx f) from rfl] at h
    simp only [stepParsers, sm_bind_apply, sm_pure_apply, smCur_apply, smNext_apply,
      smThrow_apply] at h
    rcases hA : curTokAt ctx st.position with _ | startToken
    · simp only [hA] at h
      exact absurd h (by simp)
    · simp only [hA] at h
      by_cases hB : startToken.value = "static"
      · rw [if_pos hB] at h
        simp only [sm_bind_apply, sm_pure_apply, smCur_apply, smNext_apply,
          smThrow_apply] at h
        rcases hC : curTokAt ctx (advanceTok ctx st.position) with _ | t
        · simp only [hC] at h
          rcases parseVarDeclAfterStatic_errors _ _ _ _ _ _ _ h with
            he | ⟨dt, nm, init, isSt, s0, e0, hn, he⟩
          · exact Or.inl he
          · exact Or.inr ⟨dt, nm, init, isSt, s0, e0, hn, he⟩
        · simp only [hC] at h
          by_cases hCv : t.value = "var"
          · rw [if_neg (by simp [hCv])] at h
            simp only [sm_bind_apply, sm_pure_apply, smNext_apply] at h
            rcases parseVarDeclAfterStatic_errors _ _ _ _ _ _ _ h with
              he | ⟨dt, nm, init, isSt, s0, e0, hn, he⟩
            · exact Or.inl he
            · exact Or.inr ⟨dt, nm, init, isSt, s0, e0, hn, he⟩
          · rw [if_pos hCv] at h
            simp only [smThrow_apply] at h
            exact absurd h (by simp)
      · rw [if_neg hB] at h
        simp only [sm_bind_apply, sm_pure_apply, smNext_apply] at h
        rcases parseVarDeclAfterStatic_errors _ _ _ _ _ _ _ h with
          he | ⟨dt, nm, init, isSt, s0, e0, hn, he⟩
        · exact Or.inl he
        · exact Or.inr ⟨dt, nm, init, isSt, s0, e0, hn, he⟩

/-- C5 witness: `parseVariableDeclaration` applied to the tokens of
`var x = 5` records the soft error [5, 9) and returns the node. -/
theorem claim_C5_witness :
    ((mkParsers ⟨"var x = 5".toList,
        [⟨"KEYWORD", "var", 0, 3⟩, ⟨"IDENTIFIER", "x", 4, 5⟩,
         ⟨"SYMBOL", "=", 6, 7⟩, ⟨"NUMBER", "5", 8, 9⟩]⟩ 20).sVariableDeclaration
      ⟨0, []⟩ = some (.ok
        (Stmt.varDecl none "x" (some (.literal (.num "5") "5" 8 9)) false 0 5),
        ⟨4, [⟨"Missing semicolon at end of variable declaration", 5, 9⟩]⟩)) ∧
    (([⟨"Missing semicolon at end of variable declaration", 5, 9⟩] : List PError) = [] ∨
      ∃ dt nm init isSt s e,
        Stmt.varDecl none "x" (some (.literal (.num "5") "5" 8 9)) false 0 5 =
          Stmt.varDecl dt nm init isSt s e ∧
        ([⟨"Missing semicolon at end of variable declaration", 5, 9⟩] : List PError) =
          [] ++ [⟨"Missing semicolon at end of variable declaration", e,
            findEndOfLine "var x = 5".toList e⟩]) :=
  ⟨rfl, (claim_C5_soft_missing_semicolon
    ⟨"var x = 5".toList,
      [⟨"KEYWORD", "var", 0, 3⟩, ⟨"IDENTIFIER", "x", 4, 5⟩,
       ⟨"SYMBOL", "=", 6, 7⟩, ⟨"NUMBER", "5", 8, 9⟩]⟩ 20 ⟨0, []⟩
    (Stmt.varDecl none "x" (some (.literal (.num "5") "5" 8 9)) false 0 5)
    ⟨4, [⟨"Missing semicolon at end of variable declaration", 5, 9⟩]⟩ rfl).1⟩

/-- C6: `isCompatibleType` returns true exactly for equal types, an `any`
on either side, the int-to-float widening, or actual `nil`; and checking
`var float y = 1; y = 2;` produces zero diagnostics. -/
theorem claim_C6_isCompatibleType_characterization :
    (∀ expected actual : String, isCompatibleType expected actual = true ↔
      (expected = actual ∨ expected = "any" ∨ actual = "any" ∨
        (expected = "float" ∧ actual = "int") ∨ actual = "nil")) ∧
    parseAndCheck 100 "var float y = 1; y = 2;" = some [] := by
  refine ⟨?_, rfl⟩
  intro expected actual
  unfold isCompatibleType
  split_ifs with h1 h2 h3 h4 <;> (simp_all; try tauto)

/-- C7: `inferType` never returns the string `nil` (a nil literal infers
as `any`), so the `actual = "nil"` branch of `isCompatibleType` is
unreachable from every path in `check` that calls it with an inferred
actual type.  Formally: (1) on any nil-free symbol table, `inferType`
never returns `"nil"`; and (2) nil-freedom of the table is an invariant
of the statement walk (for statements whose declared types are not the
string `"nil"`, which `isTypeKeyword` guarantees for parser output) — so
every table the checker ever passes to `inferType`, starting from the
empty one `check` resets to, is nil-free. -/
theorem claim_C7_nil_branch_unreachable (doc : String) (f : Nat) :
    (∀ (table : List (String × String)) (e : Expr),
        symbolTableNilFree table → inferType table e ≠ "nil") ∧
    (∀ (s : Stmt) (tc tc' : TCState), DeclTypesOk s →
        symbolTableNilFree tc.symbolTable →
        (mkCheckers doc f).cStmt s tc = some tc' →
        symbolTableNilFree tc'.symbolTable) :=
  ⟨fun table e ht => inferType_ne_nil table ht e, (check_nilFree doc f).1⟩

/-- Witness: the nil-branch-unreachability theorem applied at a concrete
table and at a concrete declaration step. -/
theorem claim_C7_witness :
    inferType [("x", "int")] (.identifier "x" 0 1) ≠ "nil" ∧
    symbolTableNilFree (TCState.mk [("y", "int")] [] ["y"] []).symbolTable :=
  ⟨(claim_C7_nil_branch_unreachable "" 1).1 [("x", "int")]
      (.identifier "x" 0 1)
      (fun pr hpr => by simp only [List.mem_singleton] at hpr; rw [hpr]; decide),
   (claim_C7_nil_branch_unreachable "var int y = 1;" 1).2
      (.varDecl (some "int") "y" (some (.literal (.num "1") "1" 12 13)) false 4 13)
      (TCState.mk [] [] [] []) (TCState.mk [("y", "int")] [] ["y"] [])
      (DeclTypesOk.varDecl _ _ _ _ _ _ (fun t ht => by cases ht; decide))
      (fun pr hpr => absurd hpr (List.not_mem_nil pr)) rfl⟩

/-- C8: an unterminated string literal is fatal: whenever `tokenize`
raises its unterminated-string error at offset `s`, `parse` — with any
fuel and any prior instance state — aborts with that `LexicalError`
(message `Unterminated string at position s`), returning no tokens and no
partial Program, with no statement-level recovery. -/
theorem claim_C8_unterminated_string_fatal (input : String) (s : Nat)
    (h : tokenizeRun input.toList = some (.error s)) (f : Nat) (errs0 : List PError) :
    parseCall f input errs0 = some (.error (unterminatedMsg s)) := by
  have hws : jsTrimEmpty input = false := by
    cases hx : jsTrimEmpty input with
    | false => rfl
    | true =>
      have hall : ∀ c ∈ input.toList, jsIsSpace c = true := by
        simpa [jsTrimEmpty, List.all_eq_true] using hx
      exact absurd h (ws_no_lex_error input.toList hall _ 0 [] s)
  unfold parseCall
  rw [hws]
  simp only [Bool.false_eq_true, if_false]
  rw [h]

/-- C8 witness: `var s = "abc` has an unterminated string starting at
offset 8, and `parse` aborts with the LexicalError naming offset 8. -/
theorem claim_C8_witness :
    tokenizeRun "var s = \"abc".toList = some (.error 8) ∧
    parseCall 50 "var s = \"abc" [] = some (.error (unterminatedMsg 8)) :=
  ⟨rfl, claim_C8_unterminated_string_fatal "var s = \"abc" 8 rfl 50 []⟩

/-- C9 counterexample: the claim says two `parse` calls on identical text
return identical results with no state carried over.  But `parse` never
resets `this.errors`: on the instance state left by a first call on `if`
(one recorded error), a second call on the same text returns an errors
list of length two, different from the first call's. -/
theorem claim_C9_counterexample :
    parseCall 100 "if" [] = some (.ok ⟨[Stmt.ifStmt none none none 0 (some 2)],
      [⟨"Expected \x27(\x27 after \x27if\x27", 0, 1⟩]⟩) ∧
    parseCall 100 "if" [⟨"Expected \x27(\x27 after \x27if\x27", 0, 1⟩] =
      some (.ok ⟨[Stmt.ifStmt none none none 0 (some 2)],
        [⟨"Expected \x27(\x27 after \x27if\x27", 0, 1⟩,
         ⟨"Expected \x27(\x27 after \x27if\x27", 0, 1⟩]⟩) ∧
    ([⟨"Expected \x27(\x27 after \x27if\x27", 0, 1⟩,
      ⟨"Expected \x27(\x27 after \x27if\x27", 0, 1⟩] : List PError) ≠
      [⟨"Expected \x27(\x27 after \x27if\x27", 0, 1⟩] :=
  ⟨rfl, rfl, by decide⟩

/-- C9 (amended): `parse` is deterministic, and a repeated call on the
same instance returns a result identical to the first call's exactly when
the first call recorded no errors (the errors list persists across calls
— it is never reset by `parse` — so an error-recording first call makes
the second result differ). -/
theorem claim_C9_repeat_parse_identical_iff_clean (f : Nat) (input : String)
    (p1 : Program) (h1 : parseCall f input [] = some (.ok p1))
    (h2 : p1.errors = []) :
    parseCall f input p1.errors = some (.ok p1) := by
  rw [h2]; exact h1

/-- C9 witness: on `var x = 10;` the first call records no errors and the
second call on the same instance state reproduces the result exactly. -/
theorem claim_C9_witness :
    parseCall 100 "var x = 10;" [] = some (.ok
      ⟨[Stmt.varDecl none "x" (some (.literal (.num "10") "10" 8 10)) false 0 6], []⟩) ∧
    (Program.mk [Stmt.varDecl none "x" (some (.literal (.num "10") "10" 8 10)) false 0 6]
      []).errors = [] ∧
    parseCall 100 "var x = 10;"
      (Program.mk [Stmt.varDecl none "x"
        (some (.literal (.num "10") "10" 8 10)) false 0 6] []).errors =
      some (.ok ⟨[Stmt.varDecl none "x"
        (some (.literal (.num "10") "10" 8 10)) false 0 6], []⟩) :=
  ⟨rfl, rfl, claim_C9_repeat_parse_identical_iff_clean 100 "var x = 10;" _ rfl rfl⟩

/-- C10 counterexample: the claim says every diagnostic arising inside a
parameterized catch body is appended twice.  But the first walk mutates
the shared symbol table: in `try \x7b \x7d catch (e) \x7b var x = 1; \x7d`
the first body walk declares `x`, so the second walk reports a
redeclaration — one single diagnostic, arising inside the body, appended
once (the diagnostics list has odd length, so not every entry is
duplicated). -/
theorem claim_C10_counterexample :
    parseAndCheck 100 "try \x7b \x7d catch (e) \x7b var x = 1; \x7d" =
      some [⟨1, ⟨0, 20⟩, ⟨0, 31⟩, "Variable \x27x\x27 has already been declared"⟩] ∧
    ([⟨1, ⟨0, 20⟩, ⟨0, 31⟩,
      "Variable \x27x\x27 has already been declared"⟩] : List Diag).length = 1 :=
  ⟨rfl, rfl⟩

/-- C10 (amended): `checkCatchClause` walks a parameterized catch body
twice (once before and once after registering the parameter as `any`), so
a diagnostic whose emission does not depend on state mutated by the first
walk is appended twice — e.g. a type-mismatch declaration in the body
yields two identical diagnostics — but the first walk's mutations can
make the second walk differ, so not every body diagnostic is duplicated. -/
theorem claim_C10_double_walk_duplicates :
    parseAndCheck 100 "try \x7b \x7d catch (e) \x7b var int x = \"s\"; \x7d" =
      some [⟨1, ⟨0, 32⟩, ⟨0, 35⟩,
          "Type mismatch: expected int but got string for variable \x27x\x27"⟩,
        ⟨1, ⟨0, 32⟩, ⟨0, 35⟩,
          "Type mismatch: expected int but got string for variable \x27x\x27"⟩] := rfl

end NeutronSpec
